import Mathlib

/-!
Shallow embedding of the docx-analyzer validation rule engine
(`src/docx_validator_rules.py`, class `DocumentValidator`) and proofs of the
behavioural claims about it.

Modelling conventions:
* Lengths coming from the document model are EMU integers (python-docx
  `Length` values; `Mm(x) = x * 36000` EMU).  Font sizes are carried in
  points as rationals (`Length.pt`).
* Python `float` arithmetic is modelled with exact rationals; all values the
  checkers actually manipulate (twips, multipliers, small decimals) are exact
  in binary-double range, so the model is faithful there.  `int(float(s))`
  on a regex-captured decimal numeral `d1[.d2]` is modelled as the integer
  value of `d1` (decimal truncation), which is exact for numerals below 2^53.
* Issue strings are modelled as a structured inductive `Issue`; each
  constructor corresponds to one `self.issues.append(...)` site and carries
  the data interpolated into the message (excerpt truncation to 20/30/50
  characters is presentation and is not modelled).
* XML attribute reads collapse the cases "pPr absent / element absent /
  attribute absent / attribute unparseable" into `none`, because the Python
  code treats them all identically (falls through to the next fallback).
* `'<w:numPr>' in xml and '<w:numId' in xml` and the footer field-mark scan
  (`'PAGE' in xml or 'w:fldChar' in xml`) are abstracted as boolean fields of
  the paragraph, since the XML serialisation itself is outside the model.
* Python regexes over the relevant inputs are implemented as character-list
  matchers; backtracking has been resolved by hand where it matters (the
  comments at each matcher record the reasoning).  `\s` is restricted to
  ASCII whitespace and `\w` to ASCII alphanumerics, underscore and the
  Cyrillic block, which covers every input the checkers can meet here.
-/

namespace DocsAnalyzer

/-- Python whitespace test (`str.strip`, `\s`), restricted to ASCII. -/
def isPySpace (c : Char) : Bool :=
  c = ' ' || c = '\t' || c = '\n' || c = '\r' || c = '\x0b' || c = '\x0c'

/-- ASCII decimal digit test (`\d`, `str.isdigit` on the inputs used). -/
def isDigitCh (c : Char) : Bool :=
  '0' ≤ c && c ≤ '9'

/-- Python `str.lower` on one character, for the Latin and Cyrillic letters
the validator manipulates (`А`..`Я` is U+0410..U+042F, `Ё` is U+0401). -/
def pyLowerChar (c : Char) : Char :=
  if 'A' ≤ c && c ≤ 'Z' then Char.ofNat (c.toNat + 32)
  else if 'А' ≤ c && c ≤ 'Я' then Char.ofNat (c.toNat + 32)
  else if c = 'Ё' then 'ё'
  else c

/-- Python `str.upper` on one character, same character ranges. -/
def pyUpperChar (c : Char) : Char :=
  if 'a' ≤ c && c ≤ 'z' then Char.ofNat (c.toNat - 32)
  else if 'а' ≤ c && c ≤ 'я' then Char.ofNat (c.toNat - 32)
  else if c = 'ё' then 'Ё'
  else c

def lowerList (l : List Char) : List Char := l.map pyLowerChar

def upperList (l : List Char) : List Char := l.map pyUpperChar

/-- Python `str.strip()` on a character list. -/
def stripChars (l : List Char) : List Char :=
  ((l.dropWhile isPySpace).reverse.dropWhile isPySpace).reverse

/-- Stripped text of a string (`s.strip()`). -/
def strip (s : String) : List Char := stripChars s.data

/-- Substring containment, Python `needle in haystack`. -/
def subList (needle : List Char) : List Char → Bool
  | [] => needle.isEmpty
  | c :: rest => needle.isPrefixOf (c :: rest) || subList needle rest

/-- Suffix test, Python `str.endswith`. -/
def listEndsWith (l suf : List Char) : Bool :=
  suf.reverse.isPrefixOf l.reverse

/-- Numeric value of a digit list (most significant first). -/
def digitsVal (l : List Char) : Nat :=
  l.foldl (fun a c => a * 10 + (c.toNat - 48)) 0

/-- Decimal digits of a natural number, Python `str(n)`. -/
def natDigits (n : Nat) : List Char :=
  (Nat.toDigits 10 n)

/-- Regex `\s+`: require at least one whitespace character, consume the run
greedily (no following token in any pattern used here matches whitespace, so
greediness is exact). -/
def dropSpaces1 (l : List Char) : Option (List Char) :=
  match l with
  | c :: rest => if isPySpace c then some (rest.dropWhile isPySpace) else none
  | [] => none

/-- Regex `(\d+(?:\.\d+)?)` at the head of the list, combined with Python
`int(float(group))`: returns the integer part of the captured numeral and the
rest of the input after the full (greedy) match.  The optional `.digits`
fragment is taken greedily; dropping it in backtracking never changes the
captured integer part, so greediness is exact for the value. -/
def decNumValue (t : List Char) : Option (Nat × List Char) :=
  let d := t.takeWhile isDigitCh
  if d.isEmpty then none else
  let r := t.dropWhile isDigitCh
  match r with
  | '.' :: r2 =>
    let d2 := r2.takeWhile isDigitCh
    if d2.isEmpty then some (digitsVal d, r)
    else some (digitsVal d, r2.dropWhile isDigitCh)
  | _ => some (digitsVal d, r)

/-- Word-constituent test (`\w`): ASCII alphanumerics, underscore, and the
Cyrillic block U+0400..U+04FF. -/
def isWordChar (c : Char) : Bool :=
  c.isAlphanum || c = '_' || (0x400 ≤ c.toNat && c.toNat ≤ 0x4FF)

/-- Character class `[А-ЯЁ]` under `re.IGNORECASE`: the contiguous range
U+0410..U+044F (`А`..`я`) plus `Ё`/`ё`. -/
def isCyrAnyCase (c : Char) : Bool :=
  (0x410 ≤ c.toNat && c.toNat ≤ 0x44F) || c = 'Ё' || c = 'ё'

/-- Character class `[А-Я]` without flags: U+0410..U+042F only (this range
does not contain `Ё`, U+0401). -/
def isCyrUpperAZ (c : Char) : Bool :=
  0x410 ≤ c.toNat && c.toNat ≤ 0x42F

/-- Character class `[A-ZА-Я]` (used by the all-caps body-text exemption). -/
def isUpperClassChar (c : Char) : Bool :=
  ('A' ≤ c && c ≤ 'Z') || isCyrUpperAZ c

/-- Cased-character test for Python `str.isupper`. -/
def isCasedChar (c : Char) : Bool :=
  ('a' ≤ c && c ≤ 'z') || ('A' ≤ c && c ≤ 'Z') ||
  (0x410 ≤ c.toNat && c.toNat ≤ 0x44F) || c = 'ё' || c = 'Ё'

/-- Lowercase cased-character test for Python `str.isupper`. -/
def isLowerCasedChar (c : Char) : Bool :=
  ('a' ≤ c && c ≤ 'z') || (0x430 ≤ c.toNat && c.toNat ≤ 0x44F) || c = 'ё'

/-- Python `str.isupper`: at least one cased character and no lowercase
cased character. -/
def pyIsUpper (l : List Char) : Bool :=
  l.any isCasedChar && !(l.any isLowerCasedChar)

/-- Alignment enumeration (`WD_ALIGN_PARAGRAPH`); `Option Alignment` with
`none` models an unspecified (`None`) alignment. -/
inductive Alignment
  | left
  | center
  | right
  | justify
deriving DecidableEq, Repr

/-- Members of `WD_LINE_SPACING` the validator inspects. -/
inductive WdLineSpacing
  | single
  | onePointFive
  | double
  | atLeast
  | exactly
  | multiple
deriving DecidableEq, Repr

/-- One run of a paragraph: `run.text`, `run.font.name`, `run.font.size.pt`
(size carried in points as an exact rational; `none` models `size is None`). -/
structure TextRun where
  text : String
  fontName : Option String
  fontSizePt : Option ℚ
deriving DecidableEq, Repr

/-- One paragraph of the document model, carrying every property the
validator reads.  `firstLineTwips` is the raw `w:ind/@w:firstLine` value in
twips (`none` covers pPr/ind/attribute absent or unparseable, which the code
treats identically); `spacingLine`/`spacingLineRule` are the raw
`w:spacing/@w:line` and `@w:lineRule` attributes of the direct formatting;
`lineSpacingProp`/`lineSpacingRuleProp` are the document-model provider's
`paragraph_format.line_spacing` and `.line_spacing_rule`; `hasNumPr` models
`'<w:numPr>' in xml and '<w:numId' in xml`; `xmlHasFieldMark` models
`'PAGE' in xml or 'w:fldChar' in xml`. -/
structure Paragraph where
  text : String
  alignment : Option Alignment
  firstLineTwips : Option ℚ
  spacingLine : Option ℚ
  spacingLineRule : Option String
  lineSpacingProp : Option ℚ
  lineSpacingRuleProp : Option WdLineSpacing
  styleName : Option String
  runs : List TextRun
  spaceAfter : Option ℚ
  hasNumPr : Bool
  xmlHasFieldMark : Bool
deriving DecidableEq, Repr

/-- A paragraph with the given text and every other property unspecified. -/
def mkPara (s : String) : Paragraph :=
  { text := s, alignment := none, firstLineTwips := none, spacingLine := none,
    spacingLineRule := none, lineSpacingProp := none,
    lineSpacingRuleProp := none, styleName := none, runs := [],
    spaceAfter := none, hasNumPr := false, xmlHasFieldMark := false }

/-- One section: page geometry in EMU integers and an optional footer
(`none` models a falsy/absent footer object, `some []` a footer with no
paragraphs). -/
structure Sect where
  pageWidth : Int
  pageHeight : Int
  leftMargin : Int
  rightMargin : Int
  topMargin : Int
  bottomMargin : Int
  footer : Option (List Paragraph)
deriving DecidableEq, Repr

/-- The document model: sections, flattened paragraph list, tables (opaque;
only their existence matters to the rules). -/
structure Doc where
  sections : List Sect
  paragraphs : List Paragraph
  tables : List Unit
deriving DecidableEq, Repr

/-- Structured counterpart of the diagnostic strings appended to
`self.issues`; one constructor per `append` site, carrying the interpolated
data. -/
inductive Issue
  | pageSize (widthEmu heightEmu : Int)
  | leftMargin (emu : Int)
  | rightMargin (emu : Int)
  | topMargin (emu : Int)
  | bottomMargin (emu : Int)
  | geometryAdvisory
  | wrongFont (name : String) (runText : String)
  | smallFont (sizePt : ℚ) (runText : String)
  | bodyAlignment (a : Option Alignment) (text : String)
  | badIndent (foundCm : Option ℚ) (text : String)
  | lineSpacing (value : ℚ) (ruleText : String) (text : String)
  | headingCenter (text : String)
  | headingUppercase (text : String)
  | headingPeriod (text : String)
  | headingNumbering (text : String)
  | footerCenter
  | pageNumbersNotFound
  | pageNumbersThirdPage
  | tableSequence (got expected : Nat)
  | tableCaptionFormat (n : Nat)
  | tableContAlign (text : String)
  | tableCaptionAlign (text : String)
  | tableNoReference (n : Nat)
  | figureFormat (caption : String)
  | figureAlign (caption : String)
  | figureSequence (caption : String) (got expected : Nat)
  | figureNoReference (i : Nat)
  | eqBlankBefore (text : String)
  | eqBlankAfter (text : String)
  | eqNumberMissing (text : String)
  | missingSection (name : String)
  | refWrongNumber (got expected : Nat)
  | refMissingNumber (expected : Nat)
  | refNoCitation (i : Nat)
  | appendixCenter (text : String)
  | appendixInvalidDesignation (text : String)
  | appendixBadLetter (letter : Char)
  | appendixNoReference
deriving DecidableEq, Repr

/-! String literals used by the checkers (bound once, reused everywhere). -/

def litSoderzhanie : String := "СОДЕРЖАНИЕ"
def litVvedenie : String := "ВВЕДЕНИЕ"
def litZakluchenie : String := "ЗАКЛЮЧЕНИЕ"
def litPrilozhenieUp : String := "ПРИЛОЖЕНИЕ"
def litSpisokIst : String := "СПИСОК ИСПОЛЬЗОВАННЫХ ИСТОЧНИКОВ"
def litSpisokSokr : String := "СПИСОК СОКРАЩЕНИЙ И УСЛОВНЫХ ОБОЗНАЧЕНИЙ"
def litSpisokSokrAlt : String := "СПИСОК СОКРАЩЕННЫХ И УСЛОВНЫХ ОБОЗНАЧЕНИЙ"
def litSpisokSokrShort : String := "СПИСОК СОКРАЩЕНИЙ"
def litTerminy : String := "ТЕРМИНЫ И ОПРЕДЕЛЕНИЯ"
def litRisunok : String := "Рисунок"
def litTablitsa : String := "Таблица"
def litTablitsaSp : String := "Таблица "
def litProdTab : String := "Продолжение таблицы"
def litProdTabSp : String := "Продолжение таблицы "
def litTriDots : String := "..."
def litTNR : String := "Times New Roman"
def litHttp : String := "http"
def litWww : String := "www."
def litURLColon : String := "URL:"
def litElRes : String := "[Электронный ресурс]"
def litPrilozhenieSp : String := "Приложение "
def litPrilozhenieWord : String := "Приложение"
def litTablicStem : String := "таблиц"
def litRisunStem : String := "рисун"
def litPrilozheniStem : String := "приложени"
def litGdeSp : String := "где "
def litPAGE : String := "PAGE"
def litNUMPAGES : String := "NUMPAGES"
def litAuto : String := "auto"
def litMnozhitel : String := "множитель"
def litTochno : String := "точно"
def litPolutorny : String := "полуторный"
def litDvoinoy : String := "двойной"
def litOdinarny : String := "одинарный"
def litDoubleWord : String := "double"
def litSingleWord : String := "single"
def litOneFive : String := "1.5"
def litTwoZero : String := "2.0"
def litOneZero : String := "1.0"
def litExcludedLetters : String := "ЁЗЙОЧЬЫЪ"

/-! Page geometry checker, `validate_page_format` (lines 28-68).  All
comparisons happen on EMU integers exactly as in the source
(`Mm(x) = x * 36000` EMU).  The `except` branch (generic advisory Issue)
is unreachable in the model because every read is total. -/

def a4WidthEmu : Int := 210 * 36000
def a4HeightEmu : Int := 297 * 36000
def leftMarginEmu : Int := 30 * 36000
def rightMarginEmu : Int := 15 * 36000
def rightMarginAltEmu : Int := 10 * 36000
def topMarginEmu : Int := 20 * 36000
def bottomMarginEmu : Int := 20 * 36000
def mmToleranceEmu : Int := 36000

/-- Geometry issues of one section, in source order. -/
def sectGeomIssues (s : Sect) : List Issue :=
  (if ¬((s.pageWidth - a4WidthEmu).natAbs ≤ 36000 ∧
        (s.pageHeight - a4HeightEmu).natAbs ≤ 36000) then
    [Issue.pageSize s.pageWidth s.pageHeight] else []) ++
  (if (s.leftMargin - leftMarginEmu).natAbs > 36000 then
    [Issue.leftMargin s.leftMargin] else []) ++
  (if (s.rightMargin - rightMarginEmu).natAbs > 36000 ∧
      (s.rightMargin - rightMarginAltEmu).natAbs > 36000 then
    [Issue.rightMargin s.rightMargin] else []) ++
  (if (s.topMargin - topMarginEmu).natAbs > 36000 then
    [Issue.topMargin s.topMargin] else []) ++
  (if (s.bottomMargin - bottomMarginEmu).natAbs > 36000 then
    [Issue.bottomMargin s.bottomMargin] else [])

def validatePageFormat (d : Doc) : List Issue :=
  d.sections.flatMap sectGeomIssues

/-! Typography checker, `validate_font` (lines 156-168).  The outer
`filter(lambda x: x != '', ...)` compares a paragraph object with a string
and therefore filters nothing; the real skip is `if not paragraph.text.strip()`. -/

/-- Issues of one run, in source order. -/
def runFontIssues (r : TextRun) : List Issue :=
  (match r.fontName with
   | some n => if subList litTNR.data n.data then [] else [Issue.wrongFont n r.text]
   | none => []) ++
  (match r.fontSizePt with
   | some q => if q < 12 then [Issue.smallFont q r.text] else []
   | none => [])

def validateFont (d : Doc) : List Issue :=
  (d.paragraphs.filter (fun p => strip p.text ≠ [])).flatMap
    (fun p => p.runs.flatMap runFontIssues)

/-! Appendices checker, `validate_appendices` (lines 549-577).  The outer
`filter(lambda x: x != '', ...)` again filters nothing.  The `except`
branch is unreachable in the model. -/

/-- Regex `re.match(r'Приложение\s+([А-Я])', text)` (no flags): literal
word, at least one whitespace character, then one character of `[А-Я]`
(U+0410..U+042F, which excludes `Ё`).  Returns the captured letter. -/
def appendixDesignation (t : List Char) : Option Char :=
  if litPrilozhenieWord.data.isPrefixOf t then
    match dropSpaces1 (t.drop litPrilozhenieWord.data.length) with
    | some (c :: _) => if isCyrUpperAZ c then some c else none
    | _ => none
  else none

/-- Issues of one appendix heading paragraph, in source order. -/
def appendixParaIssues (p : Paragraph) : List Issue :=
  (if p.alignment = some Alignment.center then []
   else [Issue.appendixCenter p.text]) ++
  (match appendixDesignation (stripChars p.text.data) with
   | none => [Issue.appendixInvalidDesignation p.text]
   | some letter =>
     if litExcludedLetters.data.contains letter then
       [Issue.appendixBadLetter letter] else [])

/-- Search `re.search(r'приложени[еия]', p_text, re.IGNORECASE)`:
case-insensitive occurrence of the stem followed by one of `е`/`и`/`я`. -/
def mentionsAppendix (t : List Char) : Bool :=
  (litPrilozheniStem.data ++ ['е']).isPrefixOf (lowerList t) ||
  (litPrilozheniStem.data ++ ['и']).isPrefixOf (lowerList t) ||
  (litPrilozheniStem.data ++ ['я']).isPrefixOf (lowerList t) ||
  (match t with
   | [] => false
   | _ :: rest => mentionsAppendix rest)

def isAppendixHeading (p : Paragraph) : Bool :=
  litPrilozhenieSp.data.isPrefixOf (stripChars p.text.data)

def validateAppendices (d : Doc) : List Issue :=
  let apps := d.paragraphs.filter isAppendixHeading
  apps.flatMap appendixParaIssues ++
  (if apps.isEmpty then []
   else
     let hasRef := d.paragraphs.any (fun p =>
       mentionsAppendix (stripChars p.text.data) &&
       !(litPrilozhenieSp.data.isPrefixOf (stripChars p.text.data)))
     if hasRef then [] else [Issue.appendixNoReference])

/-- Python `for i, x in enumerate(xs, start)` appending `f i x` to the issue
list at each iteration; the three numbered-entity loops (tables, figures,
references) all have this shape. -/
def enumLoop {α : Type} (f : Nat → α → List Issue) : Nat → List α → List Issue
  | _, [] => []
  | i, a :: rest => f i a ++ enumLoop f (i + 1) rest

/-! Generic search: `re.search` tries every start position left to right. -/

/-- Try the anchored matcher `f` at every suffix of the input. -/
def scanPositions (f : List Char → Bool) : List Char → Bool
  | [] => f []
  | c :: rest => f (c :: rest) || scanPositions f rest

/-- Tail of a reference pattern: `\s+<digits>\b` — at least one whitespace,
the exact digit string, then a word boundary (end of input or a non-word
character). -/
def spacesNumBoundary (digits : List Char) (r : List Char) : Bool :=
  match dropSpaces1 r with
  | some r2 =>
    digits.isPrefixOf r2 &&
    (match r2.drop digits.length with
     | [] => true
     | c :: _ => !isWordChar c)
  | none => false

/-- Anchored matcher for `таблиц[аеуыи]?\s+<n>\b` (`re.IGNORECASE`; the
input is pre-lowercased).  Both branches of the optional class are tried,
as the regex engine would by backtracking. -/
def tableRefAt (digits : List Char) (t : List Char) : Bool :=
  if litTablicStem.data.isPrefixOf t then
    let r := t.drop litTablicStem.data.length
    (match r with
     | c :: rest =>
       (c = 'а' || c = 'е' || c = 'у' || c = 'ы' || c = 'и') &&
       spacesNumBoundary digits rest
     | [] => false) ||
    spacesNumBoundary digits r
  else false

/-- Anchored matcher for `рисун[окаеи][ак]?\s+<i>\b` (`re.IGNORECASE`;
pre-lowercased input). -/
def figRefAt (digits : List Char) (t : List Char) : Bool :=
  if litRisunStem.data.isPrefixOf t then
    match t.drop litRisunStem.data.length with
    | c :: rest =>
      (c = 'о' || c = 'к' || c = 'а' || c = 'е' || c = 'и') &&
      ((match rest with
        | c2 :: rest2 => (c2 = 'а' || c2 = 'к') && spacesNumBoundary digits rest2
        | [] => false) ||
       spacesNumBoundary digits rest)
    | [] => false
  else false

/-! Tables checker, `validate_tables` (lines 337-403). -/

/-- Caption collection (lines 344-367): a paragraph with non-empty text whose
stripped text starts with `Таблица ` or `Продолжение таблицы ` and whose
regex `^Таблица\s+(\d+(?:\.\d+)?)` (resp. the continuation variant) captures
a numeral yields an entry `(int(float(numeral)), paragraph, is_continuation)`.
The `except ValueError` branches (lines 355, 366) are unreachable because the
regex only captures parseable numerals. -/
def tableCaptionEntry (p : Paragraph) : Option (Nat × Paragraph × Bool) :=
  if p.text = "" then none else
  let t := stripChars p.text.data
  if litTablitsaSp.data.isPrefixOf t then
    match dropSpaces1 (t.drop litTablitsa.data.length) with
    | some r => (decNumValue r).map (fun x => (x.1, p, false))
    | none => none
  else if litProdTabSp.data.isPrefixOf t then
    match dropSpaces1 (t.drop litProdTab.data.length) with
    | some r => (decNumValue r).map (fun x => (x.1, p, true))
    | none => none
  else none

def tableEntries (d : Doc) : List (Nat × Paragraph × Bool) :=
  d.paragraphs.filterMap tableCaptionEntry

/-- Insertion into an ascending list (helper for Python `sorted`). -/
def insertAsc (n : Nat) : List Nat → List Nat
  | [] => [n]
  | m :: rest => if n ≤ m then n :: m :: rest else m :: insertAsc n rest

/-- Ascending sort, Python `sorted` (insertion sort; the result only depends
on the multiset, so this matches `sorted` exactly on the deduplicated keys). -/
def sortAsc : List Nat → List Nat
  | [] => []
  | n :: rest => insertAsc n (sortAsc rest)

/-- Line 369, `sorted(table_numbers.keys())`: the distinct caption numbers in
ascending order. -/
def observedTableNums (d : Doc) : List Nat :=
  sortAsc ((tableEntries d).map (fun e => e.1)).dedup

/-- Regex `^Таблица\s+<n>(\s+[-–—]\s+|\s*$)` (line 383). -/
def tableCapFormatOk (n : Nat) (t : List Char) : Bool :=
  if litTablitsa.data.isPrefixOf t then
    match dropSpaces1 (t.drop litTablitsa.data.length) with
    | some r =>
      if (natDigits n).isPrefixOf r then
        let r2 := r.drop (natDigits n).length
        (match dropSpaces1 r2 with
         | some (c :: r3) => (c = '-' || c = '–' || c = '—') && (dropSpaces1 r3).isSome
         | _ => false) || r2.all isPySpace
      else false
    | none => false
  else false

/-- Per-table body of the loop at lines 375-403 (everything except the
sequence check): caption-format check on the first main caption, alignment
checks for every caption, and the in-text reference search. -/
def perTableIssues (d : Doc) (n : Nat) : List Issue :=
  let caps := (tableEntries d).filter (fun e => e.1 = n)
  (match caps.find? (fun e => e.2.2 = false) with
   | some e =>
     if tableCapFormatOk n (stripChars e.2.1.text.data) then []
     else [Issue.tableCaptionFormat n]
   | none => []) ++
  caps.flatMap (fun e =>
    if e.2.2 then
      if e.2.1.alignment ≠ some Alignment.right then [Issue.tableContAlign e.2.1.text] else []
    else
      if e.2.1.alignment ≠ some Alignment.left ∧ e.2.1.alignment ≠ none then
        [Issue.tableCaptionAlign e.2.1.text] else []) ++
  (if (d.paragraphs.filter (fun p => p.text ≠ "")).any
        (fun p => scanPositions (tableRefAt (natDigits n)) (lowerList p.text.data)) then []
   else [Issue.tableNoReference n])

/-- Body of the loop `for i, table_num in enumerate(tables_in_order, 1)`
(lines 371-403): the sequence check followed by the per-table checks. -/
def tableIterIssues (d : Doc) (i n : Nat) : List Issue :=
  (if n ≠ i then [Issue.tableSequence n i] else []) ++ perTableIssues d n

/-- `validate_tables`: returns immediately when the document has no Table
objects (line 338). -/
def validateTables (d : Doc) : List Issue :=
  if d.tables.isEmpty then []
  else enumLoop (tableIterIssues d) 1 (observedTableNums d)

/-! Figures checker, `validate_figures` (lines 405-442). -/

/-- Collection regex `^Рисунок\s+\d+` on stripped text (line 410), applied to
paragraphs with non-empty text. -/
def figCaption (p : Paragraph) : Option Paragraph :=
  if p.text = "" then none else
  let t := stripChars p.text.data
  if litRisunok.data.isPrefixOf t then
    match dropSpaces1 (t.drop litRisunok.data.length) with
    | some (c :: _) => if isDigitCh c then some p else none
    | _ => none
  else none

/-- Regex `^Рисунок\s+\d+\s+[\-–—]\s+\w` (line 418). -/
def figFormatOk (t : List Char) : Bool :=
  if litRisunok.data.isPrefixOf t then
    match dropSpaces1 (t.drop litRisunok.data.length) with
    | some r =>
      if (r.takeWhile isDigitCh).isEmpty then false else
      match dropSpaces1 (r.dropWhile isDigitCh) with
      | some (c :: r2) =>
        (c = '-' || c = '–' || c = '—') &&
        (match dropSpaces1 r2 with
         | some (w :: _) => isWordChar w
         | _ => false)
      | _ => false
    | none => false
  else false

/-- Search `Рисунок\s+(\d+(?:\.\d+)?)` (line 424) on a collected caption; the
leftmost match is at position 0 because the caption passed the collection
regex. -/
def figNumberOf (t : List Char) : Option Nat :=
  match dropSpaces1 (t.drop litRisunok.data.length) with
  | some r => (decNumValue r).map (fun x => x.1)
  | none => none

/-- Per-figure body of the loop at lines 417-442; `i` is the 1-based ordinal
of the caption. -/
def figureIssues (d : Doc) (i : Nat) (p : Paragraph) : List Issue :=
  let cap := stripChars p.text.data
  (if figFormatOk cap then [] else [Issue.figureFormat ⟨cap⟩]) ++
  (if p.alignment ≠ some Alignment.center ∧ p.alignment ≠ none then
    [Issue.figureAlign ⟨cap⟩] else []) ++
  (match figNumberOf cap with
   | some n => if n ≠ i then [Issue.figureSequence ⟨cap⟩ n i] else []
   | none => []) ++
  (if d.paragraphs.any (fun q => scanPositions (figRefAt (natDigits i)) (lowerList q.text.data)) then []
   else [Issue.figureNoReference i])

def validateFigures (d : Doc) : List Issue :=
  enumLoop (figureIssues d) 1 (d.paragraphs.filterMap figCaption)

/-! Line spacing, `get_line_spacing_value` (lines 88-154). -/

/-- Style-keyword fallback (lines 142-152) followed by the final default
(line 154). -/
def styleSpacing (p : Paragraph) : ℚ × String :=
  match p.styleName with
  | some s =>
    if subList litPolutorny.data (lowerList s.data) || subList litOneFive.data s.data then
      (3/2, litAuto)
    else if subList litDvoinoy.data (lowerList s.data) || subList litTwoZero.data s.data ||
            subList litDoubleWord.data (lowerList s.data) then
      (2, litAuto)
    else if subList litOdinarny.data (lowerList s.data) || subList litOneZero.data s.data ||
            subList litSingleWord.data (lowerList s.data) then
      (1, litAuto)
    else (1, litAuto)
  | none => (1, litAuto)

/-- `get_line_spacing_value`: (a) direct `w:spacing/@w:line` (an absent
`@w:lineRule` defaults to `auto`; the `auto` rule divides by 240, any other
rule converts `value/20` points to a multiple of 12 pt, clamped to 1.0 when
the ratio is ≤ 1.2); (b) `paragraph_format.line_spacing` with snapping bands;
(b') `paragraph_format.line_spacing_rule` for the three enum members; (c)
style-name keywords; (d) default 1.0.  The bare `except` at line 139 never
fires in the model because every field read is total. -/
def getLineSpacingValue (p : Paragraph) : ℚ × String :=
  match p.spacingLine with
  | some v =>
    let rule := p.spacingLineRule.getD litAuto
    if rule = litAuto then (v / 240, rule)
    else if v / 20 / 12 > 6/5 then (v / 20 / 12, rule) else (1, rule)
  | none =>
    match p.lineSpacingProp with
    | some ls =>
      if 7/5 ≤ ls ∧ ls ≤ 8/5 then (3/2, litAuto)
      else if 19/10 ≤ ls ∧ ls ≤ 21/10 then (2, litAuto)
      else if 9/10 ≤ ls ∧ ls ≤ 11/10 then (1, litAuto)
      else (ls, litAuto)
    | none =>
      match p.lineSpacingRuleProp with
      | some WdLineSpacing.onePointFive => (3/2, litAuto)
      | some WdLineSpacing.double => (2, litAuto)
      | some WdLineSpacing.single => (1, litAuto)
      | _ => styleSpacing p

/-! First-line indent, `get_first_line_indent_cm` (lines 70-86). -/

/-- Conversion factor of line 83 (`twips * 0.0017638889`). -/
def twipsToCmFactor : ℚ := 17638889 / 10000000000

/-- Round-half-even to an integer, Python `round` (exact rational model of
the float rounding; all indent values met in practice are exact). -/
def rheInt (x : ℚ) : Int :=
  let f := x.floor
  let frac := x - f
  if frac < 1/2 then f
  else if 1/2 < frac then f + 1
  else if f % 2 = 0 then f else f + 1

/-- `get_first_line_indent_cm`: `round(twips * 0.0017638889, 3)`; `none`
covers pPr/ind/attribute absent or a `ValueError` from `float`. -/
def getFirstLineIndentCm (p : Paragraph) : Option ℚ :=
  p.firstLineTwips.map (fun tw => (rheInt (tw * twipsToCmFactor * 1000) : ℚ) / 1000)

/-! Paragraph formatting checker, `validate_paragraphs` (lines 170-236). -/

def topSectionNames : List String :=
  [litSoderzhanie, litVvedenie, litZakluchenie, litPrilozhenieUp, litSpisokIst,
   litSpisokSokr, litTerminy]

/-- Heading pattern 1 (line 174): one of the fixed section names as a prefix,
`re.IGNORECASE`. -/
def matchesSectionName (t : List Char) : Bool :=
  topSectionNames.any (fun n => (lowerList n.data).isPrefixOf (lowerList t))

/-- Star fragment `(?:\.\d+)*`: consume `.digits` groups greedily (fuelled by
the input length; backtracking a group never helps because the following
token `\s` cannot match the `.` left behind). -/
def dotGroups : Nat → List Char → List Char
  | 0, r => r
  | fuel + 1, r =>
    match r with
    | '.' :: rest =>
      if (rest.takeWhile isDigitCh).isEmpty then '.' :: rest
      else dotGroups fuel (rest.dropWhile isDigitCh)
    | r2 => r2

/-- Heading pattern 2 (line 175): `^(\d+(?:\.\d+)?(?:\.\d+)*)\s+[А-ЯЁ]`,
`re.IGNORECASE` (so the letter class also matches lowercase). -/
def matchNumHeading (t : List Char) : Bool :=
  !(t.takeWhile isDigitCh).isEmpty &&
  (match dropSpaces1 (dotGroups t.length (t.dropWhile isDigitCh)) with
   | some (c :: _) => isCyrAnyCase c
   | _ => false)

/-- Heading patterns 3 and 4 (lines 176-177): `^W\s+\d...` with
`re.IGNORECASE` for a literal word `W`. -/
def matchWordNum (w : String) (t : List Char) : Bool :=
  (lowerList w.data).isPrefixOf (lowerList t) &&
  (match dropSpaces1 (t.drop w.data.length) with
   | some (c :: _) => isDigitCh c
   | _ => false)

def isHeadingTextPara (t : List Char) : Bool :=
  matchesSectionName t || matchNumHeading t ||
  matchWordNum litRisunok t || matchWordNum litTablitsa t

/-- `is_list_item` (line 205): bullet, hyphen, or `^\d+\.`. -/
def isListItemText (t : List Char) : Bool :=
  match t with
  | [] => false
  | c :: _ =>
    c = '•' || c = '-' ||
    (!(t.takeWhile isDigitCh).isEmpty && (t.dropWhile isDigitCh).head? = some '.')

/-- `is_table_continuation` (line 206): `^Продолжение таблицы \d+...`
(literal single space, no flags; the optional decimal tail does not affect
the boolean). -/
def isContCaption (t : List Char) : Bool :=
  litProdTabSp.data.isPrefixOf t &&
  !((t.drop litProdTabSp.data.length).takeWhile isDigitCh).isEmpty

/-- Section-context flags (`in_terms_section`, `in_abbreviations_section`). -/
structure ParaCtx where
  inTerms : Bool
  inAbbrev : Bool
deriving DecidableEq, Repr

/-- Context update, lines 188-196 (an `elif` chain over `text.upper()`). -/
def updateCtx (ctx : ParaCtx) (t : List Char) : ParaCtx :=
  let up := upperList t
  if subList litTerminy.data up then ⟨true, false⟩
  else if subList litSpisokSokr.data up || subList litSpisokSokrAlt.data up then ⟨false, true⟩
  else if [litVvedenie, litSoderzhanie, litSpisokIst, litZakluchenie,
           litPrilozhenieUp].any (fun n => subList n.data up) then ⟨false, false⟩
  else ctx

/-- All-caps exemption `^[A-ZА-Я]{2,}` (line 217). -/
def startsTwoUpper (t : List Char) : Bool :=
  match t with
  | a :: b :: _ => isUpperClassChar a && isUpperClassChar b
  | _ => false

/-- Indent check, lines 220-222 (`1.24`/`1.26` cm bounds; a missing indent is
reported with `0` in the message, modelled as the `none` payload). -/
def indentIssuesOf (p : Paragraph) : List Issue :=
  match getFirstLineIndentCm p with
  | none => [Issue.badIndent none p.text]
  | some q =>
    if q < 31/25 ∨ q > 63/50 then [Issue.badIndent (some q) p.text] else []

/-- Spacing check, lines 226-234. -/
def spacingIssuesOf (p : Paragraph) : List Issue :=
  let v := getLineSpacingValue p
  if ¬(7/5 ≤ v.1 ∧ v.1 ≤ 8/5) then
    [Issue.lineSpacing v.1 (if v.2 = litAuto then litMnozhitel else litTochno) p.text]
  else []

/-- Disjunction `is_heading or is_toc_entry or is_list_item or
is_table_continuation` (line 213); `is_toc_entry` looks at the unstripped
text for the tab (line 204). -/
def classifySkip (p : Paragraph) (t : List Char) : Bool :=
  isHeadingTextPara t ||
  (p.text.data.contains '\t' || listEndsWith t litTriDots.data) ||
  isListItemText t || isContCaption t

/-- Alignment check, lines 208-211. -/
def alignIssuesOf (p : Paragraph) (t : List Char) : List Issue :=
  if ¬isHeadingTextPara t ∧
     ¬(p.text.data.contains '\t' || listEndsWith t litTriDots.data) ∧
     ¬isListItemText t ∧ ¬isContCaption t ∧
     ¬(p.alignment = some Alignment.justify ∨ p.alignment = none) then
    [Issue.bodyAlignment p.alignment p.text]
  else []

/-- Indent and spacing checks with their exemptions, lines 213-236 (the
guard of line 224 repeats conditions that already hold on this branch and is
therefore not re-tested). -/
def bodyRestIssues (ctx2 : ParaCtx) (p : Paragraph) (t : List Char) : List Issue :=
  if classifySkip p t then []
  else if ctx2.inTerms || ctx2.inAbbrev then []
  else if startsTwoUpper t || litGdeSp.data.isPrefixOf t then []
  else indentIssuesOf p ++ spacingIssuesOf p

/-- One iteration of the `validate_paragraphs` loop: returns the updated
context and the issues appended for this paragraph. -/
def paragraphStep (ctx : ParaCtx) (p : Paragraph) : ParaCtx × List Issue :=
  if p.text = "" then (ctx, []) else
  if (stripChars p.text.data).isEmpty then (ctx, []) else
  (updateCtx ctx (stripChars p.text.data),
   alignIssuesOf p (stripChars p.text.data) ++
   bodyRestIssues (updateCtx ctx (stripChars p.text.data)) p
     (stripChars p.text.data))

def paraLoop : ParaCtx → List Paragraph → List Issue
  | _, [] => []
  | ctx, p :: rest =>
    let s := paragraphStep ctx p
    s.2 ++ paraLoop s.1 rest

def validateParagraphs (d : Doc) : List Issue :=
  paraLoop ⟨false, false⟩ d.paragraphs

/-! Heading structure checker, `validate_headings` (lines 238-279). -/

/-- Level-0 pattern (line 241): a fixed section name followed by `\s*$` or by
a three-dot leader, `re.IGNORECASE`.  No section name is a prefix of
another that could continue to a match, so existential choice over the
alternation is exact. -/
def matchLevel0 (t : List Char) : Bool :=
  topSectionNames.any (fun n =>
    (lowerList n.data).isPrefixOf (lowerList t) &&
    (let r := t.drop n.data.length
     r.all isPySpace || litTriDots.data.isPrefixOf r))

/-- Level-1 pattern (line 242): `^(\d+)\s+[А-ЯЁ]`, `re.IGNORECASE`. -/
def matchLevel1 (t : List Char) : Bool :=
  !(t.takeWhile isDigitCh).isEmpty &&
  (match dropSpaces1 (t.dropWhile isDigitCh) with
   | some (c :: _) => isCyrAnyCase c
   | _ => false)

/-- Level-2 pattern (line 243): `^(\d+\.\d+)\s+[А-ЯЁ]`, `re.IGNORECASE`. -/
def matchLevel2 (t : List Char) : Bool :=
  !(t.takeWhile isDigitCh).isEmpty &&
  (match t.dropWhile isDigitCh with
   | '.' :: r =>
     !(r.takeWhile isDigitCh).isEmpty &&
     (match dropSpaces1 (r.dropWhile isDigitCh) with
      | some (c :: _) => isCyrAnyCase c
      | _ => false)
   | _ => false)

/-- Level-3 pattern (line 244): `^(\d+\.\d+\.\d+)\s+[А-ЯЁ]`,
`re.IGNORECASE`. -/
def matchLevel3 (t : List Char) : Bool :=
  !(t.takeWhile isDigitCh).isEmpty &&
  (match t.dropWhile isDigitCh with
   | '.' :: r =>
     !(r.takeWhile isDigitCh).isEmpty &&
     (match r.dropWhile isDigitCh with
      | '.' :: r2 =>
        !(r2.takeWhile isDigitCh).isEmpty &&
        (match dropSpaces1 (r2.dropWhile isDigitCh) with
         | some (c :: _) => isCyrAnyCase c
         | _ => false)
      | _ => false)
   | _ => false)

/-- First matching pattern in declaration order (lines 252-255). -/
def headingLevelOf (t : List Char) : Option Nat :=
  if matchLevel0 t then some 0
  else if matchLevel1 t then some 1
  else if matchLevel2 t then some 2
  else if matchLevel3 t then some 3
  else none

/-- Collection pass, lines 247-255: `(stripped text, level, paragraph)`. -/
def headingEntries (d : Doc) : List (List Char × Nat × Paragraph) :=
  d.paragraphs.filterMap (fun p =>
    if p.text = "" then none else
    let t := stripChars p.text.data
    if t.isEmpty then none else
    (headingLevelOf t).map (fun lv => (t, lv, p)))

/-- Python `text.split()[0]` on stripped non-empty text. -/
def firstToken (t : List Char) : List Char :=
  t.takeWhile (fun c => !isPySpace c)

/-- Per-heading issues, lines 257-279.  For level ≥ 1 the numbering check
runs only at level 1; there the prefix regex `(\d+(?:\.\d+)?)` always
captures a parseable numeral (the text starts with a digit), so the
`except` at line 278 is unreachable. -/
def headingEntryIssues (e : List Char × Nat × Paragraph) : List Issue :=
  let t := e.1
  let lv := e.2.1
  let p := e.2.2
  if lv = 0 then
    (if (p.alignment ≠ some Alignment.center ∧ p.alignment ≠ none) ∧
        ¬t.contains '\t' ∧ ¬listEndsWith t litTriDots.data then
      [Issue.headingCenter ⟨t⟩] else []) ++
    (if (¬pyIsUpper t ∧ ¬t.contains '\t' ∧ ¬listEndsWith t litTriDots.data) ∧
        ¬pyIsUpper (firstToken t) then
      [Issue.headingUppercase ⟨t⟩] else [])
  else
    (if listEndsWith t ['.'] then [Issue.headingPeriod ⟨t⟩] else []) ++
    (if lv = 1 then
      match decNumValue t with
      | some x => if x.1 < 1 then [Issue.headingNumbering ⟨t⟩] else []
      | none => []
     else [])

def validateHeadings (d : Doc) : List Issue :=
  (headingEntries d).flatMap headingEntryIssues

/-! Page numbering checker, `validate_page_numbering` (lines 281-335).  The
outer `try/except: pass` swallows every error; the model is total, which
realises the same guarantee. -/

/-- Alignment issues for the footer paragraphs of the first section with
non-empty footer text (lines 292-294). -/
def footerCenterIssues (ps : List Paragraph) : List Issue :=
  ps.filterMap (fun p =>
    if stripChars p.text.data ≠ [] ∧
       p.alignment ≠ some Alignment.center ∧ p.alignment ≠ none then
      some Issue.footerCenter
    else none)

/-- Footer scan, lines 286-308.  Result: `(has_page_numbers,
page_numbers_start_on_third_page, centering issues)`.  A section with
non-empty footer text stops the scan (`break`, line 298); a section with
only a field marker records the find and continues (the `break` at line 308
leaves only the inner loop). -/
def pnFooterLoop : Nat → List Sect → Bool × Bool × List Issue
  | _, [] => (false, false, [])
  | idx, s :: rest =>
    match s.footer with
    | some ps =>
      if ps ≠ [] then
        if ps.any (fun p => stripChars p.text.data ≠ []) then
          (true, decide (2 ≤ idx), footerCenterIssues ps)
        else if ps.any (fun p => p.xmlHasFieldMark) then
          let r := pnFooterLoop (idx + 1) rest
          (true, (decide (2 ≤ idx)) || r.2.1, r.2.2)
        else pnFooterLoop (idx + 1) rest
      else pnFooterLoop (idx + 1) rest
    | none => pnFooterLoop (idx + 1) rest

/-- Body scan, lines 311-326: first paragraph whose text contains `PAGE` or
`NUMPAGES`, or whose XML carries a field marker; `approx_page = i // 20 + 1`. -/
def pnBodyScan : Nat → List Paragraph → Bool × Bool
  | _, [] => (false, false)
  | i, p :: rest =>
    if subList litPAGE.data p.text.data || subList litNUMPAGES.data p.text.data then
      (true, decide (3 ≤ i / 20 + 1))
    else if p.xmlHasFieldMark then (true, decide (3 ≤ i / 20 + 1))
    else pnBodyScan (i + 1) rest

/-- Final values of the locals `has_page_numbers` and
`page_numbers_start_on_third_page`: the body scan of lines 310-326 runs only
when the footer scan found nothing. -/
def pnHasThird (d : Doc) : Bool × Bool :=
  if (pnFooterLoop 0 d.sections).1 then
    ((pnFooterLoop 0 d.sections).1, (pnFooterLoop 0 d.sections).2.1)
  else pnBodyScan 0 d.paragraphs

def validatePageNumbering (d : Doc) : List Issue :=
  (pnFooterLoop 0 d.sections).2.2 ++
  (if ¬(pnHasThird d).1 ∧ d.paragraphs.length > 20 then
    [Issue.pageNumbersNotFound] else []) ++
  (if (pnHasThird d).1 ∧ ¬(pnHasThird d).2 then
    [Issue.pageNumbersThirdPage] else [])

/-! Equations checker, `validate_equations` (lines 444-472). -/

/-- Skip condition of line 449 (URL / bibliographic markers). -/
def isUrlText (t : List Char) : Bool :=
  subList litHttp.data t || subList litWww.data t ||
  subList litURLColon.data t || subList litElRes.data t

/-- Tail `\.\s+[А-ЯЁа-яёA-Za-z]` of the numbered-line pattern. -/
def tailSpacesLetter (r : List Char) : Bool :=
  match dropSpaces1 r with
  | some (c :: _) => c.isAlpha || isCyrAnyCase c
  | _ => false

/-- Skip pattern of line 452, `^\d+(?:\.\d+)?\.\s+[А-ЯЁа-яёA-Za-z]`.  When
the optional fragment matches but the mandatory dot does not follow,
backtracking to the shorter alternative cannot succeed (a digit would have
to match `\.`), so the greedy reading below is exact. -/
def isNumDotHeading (t : List Char) : Bool :=
  !(t.takeWhile isDigitCh).isEmpty &&
  (match t.dropWhile isDigitCh with
   | '.' :: r =>
     if (r.takeWhile isDigitCh).isEmpty then tailSpacesLetter r
     else
       match r.dropWhile isDigitCh with
       | '.' :: r2 => tailSpacesLetter r2
       | _ => false
   | _ => false)

/-- Tail `\s*[=<>]` of the variable pattern. -/
def varEqAfter (rest : List Char) : Bool :=
  match rest.dropWhile isPySpace with
  | c :: _ => c = '=' || c = '<' || c = '>'
  | [] => false

/-- Search `\b[a-zA-Zа-яА-ЯЁё]\s*[=<>]` (line 457); the flag tracks whether
the previous character was a word character (the letter is itself a word
character, so the boundary holds exactly when the previous one is not). -/
def varEqScan (prevWord : Bool) : List Char → Bool
  | [] => false
  | c :: rest =>
    (!prevWord && (c.isAlpha || isCyrAnyCase c) && varEqAfter rest) ||
    varEqScan (isWordChar c) rest

/-- Candidate test of lines 449-459 on stripped text. -/
def eqCandidate (t : List Char) : Bool :=
  !isUrlText t && !isNumDotHeading t && t.contains '=' &&
  (t.contains '+' || t.contains '-' || t.contains '*' || t.contains '/' ||
   t.contains '^' || varEqScan false t)

/-- Digit groups separated by dots up to the closing parenthesis, which must
end the text; the two end-of-line patterns of line 471 jointly accept 1 to 4
groups. -/
def groupsThenClose : Nat → Nat → List Char → Bool
  | 0, _, _ => false
  | fuel + 1, k, l =>
    if (l.takeWhile isDigitCh).isEmpty then false else
    match l.dropWhile isDigitCh with
    | [')'] => k + 1 ≤ 4
    | '.' :: r2 => groupsThenClose fuel (k + 1) r2
    | _ => false

/-- Search for `\(\d+(?:\.\d+)?\.\d+(?:\.\d+)?\)$` or `\(\d+(?:\.\d+)?\)$`
(line 471): some suffix `( groups )` closing exactly at the end of the text
with 1-4 digit groups. -/
def eqNumAtEnd : List Char → Bool
  | [] => false
  | '(' :: rest => groupsThenClose (rest.length + 1) 0 rest || eqNumAtEnd rest
  | _ :: rest => eqNumAtEnd rest

/-- Python falsiness of `paragraph_format.space_after` (None or zero). -/
def falsySpace (s : Option ℚ) : Bool :=
  match s with
  | none => true
  | some q => q = 0

/-- Issues for one paragraph given its neighbours (lines 460-472). -/
def eqIssuesFor (prev : Option Paragraph) (p : Paragraph) (next : Option Paragraph) :
    List Issue :=
  let t := stripChars p.text.data
  if eqCandidate t then
    (match prev with
     | some pv =>
       if stripChars pv.text.data ≠ [] ∧ falsySpace pv.spaceAfter then
         [Issue.eqBlankBefore ⟨t⟩] else []
     | none => []) ++
    (match next with
     | some nx =>
       if stripChars nx.text.data ≠ [] ∧ falsySpace p.spaceAfter then
         [Issue.eqBlankAfter ⟨t⟩] else []
     | none => []) ++
    (if eqNumAtEnd t then [] else [Issue.eqNumberMissing ⟨t⟩])
  else []

def eqLoop : Option Paragraph → List Paragraph → List Issue
  | _, [] => []
  | prev, p :: rest => eqIssuesFor prev p rest.head? ++ eqLoop (some p) rest

def validateEquations (d : Doc) : List Issue :=
  eqLoop none d.paragraphs

/-! References checker, `validate_references` (lines 474-547). -/

def requiredHeadings : List String :=
  [litSoderzhanie, litVvedenie, litZakluchenie, litSpisokIst, litSpisokSokr,
   litTerminy]

/-- Required-section scan, lines 484-494. -/
def missingSectionIssues (d : Doc) : List Issue :=
  requiredHeadings.filterMap (fun h =>
    if (d.paragraphs.filter (fun p => p.text ≠ "")).any
         (fun p => subList h.data (upperList (stripChars p.text.data))) then none
    else some (Issue.missingSection h))

def refBoundaryNames : List String :=
  [litPrilozhenieUp, litSpisokSokrShort, litTerminy]

/-- Entry collection, lines 496-511: paragraphs between the references
heading and the next boundary heading; the heading line itself is skipped
(`continue`) and a boundary paragraph is excluded by the in-iteration flag
reset. -/
def refEntriesLoop : Bool → List Paragraph → List Paragraph
  | _, [] => []
  | inRef, p :: rest =>
    if subList litSpisokIst.data (upperList p.text.data) then refEntriesLoop true rest
    else
      let inRef2 :=
        if inRef ∧ stripChars p.text.data ≠ [] ∧
           refBoundaryNames.any (fun n => subList n.data (upperList p.text.data)) then
          false
        else inRef
      (if inRef2 ∧ stripChars p.text.data ≠ [] then [p] else []) ++
      refEntriesLoop inRef2 rest

def referencesEntries (d : Doc) : List Paragraph :=
  refEntriesLoop false d.paragraphs

/-- Numbering-prefix regex of line 527, `^\s*(\d+(?:\.\d+)?)[\.\s]`, combined
with `int(float(group))`.  When a `.` follows the leading digit run the match
always succeeds with captured integer part equal to that run (either the
optional decimal fragment matches and a separator follows, or backtracking
drops the fragment and the `.` itself is the separator); when whitespace
follows it succeeds likewise; otherwise there is no match.  The `except` at
line 533 is therefore unreachable. -/
def refLeadingNum (t : List Char) : Option Nat :=
  let t2 := t.dropWhile isPySpace
  let d := t2.takeWhile isDigitCh
  if d.isEmpty then none else
  match t2.dropWhile isDigitCh with
  | '.' :: _ => some (digitsVal d)
  | c :: _ => if isPySpace c then some (digitsVal d) else none
  | [] => none

/-- Numbering issues for the entry at 1-based position `i`
(lines 519-537). -/
def refEntryIssues (i : Nat) (p : Paragraph) : List Issue :=
  let t := stripChars p.text.data
  if p.hasNumPr then [] else
  match refLeadingNum t with
  | some n => if n ≠ i then [Issue.refWrongNumber n i] else []
  | none =>
    if subList litHttp.data t || subList litElRes.data t then []
    else [Issue.refMissingNumber i]

/-- Anchored matcher for the citation pattern `\[\s*<i>\s*\]`
(lines 540-544). -/
def citationAt (digits : List Char) (t : List Char) : Bool :=
  match t with
  | '[' :: rest =>
    let r := rest.dropWhile isPySpace
    digits.isPrefixOf r &&
    (match (r.drop digits.length).dropWhile isPySpace with
     | ']' :: _ => true
     | _ => false)
  | _ => false

def hasCitation (d : Doc) (i : Nat) : Bool :=
  (d.paragraphs.filter (fun p => p.text ≠ "")).any
    (fun p => scanPositions (citationAt (natDigits i)) p.text.data)

def refCitationIssues (d : Doc) (i : Nat) (p : Paragraph) : List Issue :=
  if ¬hasCitation d i ∧ (stripChars p.text.data).length > 3 then
    [Issue.refNoCitation i]
  else []

/-- Body of the loop `for i, paragraph in enumerate(references_paragraphs, 1)`
(lines 516-547). -/
def refIterIssues (d : Doc) (i : Nat) (p : Paragraph) : List Issue :=
  refEntryIssues i p ++ refCitationIssues d i p

def validateReferences (d : Doc) : List Issue :=
  missingSectionIssues d ++
  (let entries := referencesEntries d
   if entries.isEmpty then [] else enumLoop (refIterIssues d) 1 entries)

/-! Top level, `validate_all` (lines 12-26).  The accumulator `self.issues`
is threaded explicitly: a run starts from the caller-visible prior state and
the first statement (`self.issues = []`, line 13) discards it. -/

set_option linter.unusedVariables false in
def validateAllFrom (d : Doc) (prior : List Issue) : List Issue :=
  let issues : List Issue := []
  let issues := issues ++ validatePageFormat d
  let issues := issues ++ validateFont d
  let issues := issues ++ validateParagraphs d
  let issues := issues ++ validateHeadings d
  let issues := issues ++ validatePageNumbering d
  let issues := issues ++ validateTables d
  let issues := issues ++ validateFigures d
  let issues := issues ++ validateEquations d
  let issues := issues ++ validateReferences d
  let issues := issues ++ validateAppendices d
  issues

/-! Claim-side definitions: tolerance-band predicates for the page
geometry claim and the two normalization chains (stated vs amended) for
the line-spacing claim. -/

/-! Concrete documents used by witnesses and counterexamples. -/

/-- Appendix heading paragraph `Приложение Ё`, centered. -/
def pYo : Paragraph := { mkPara "Приложение Ё" with alignment := some Alignment.center }

def c1doc : Doc := { sections := [], paragraphs := [pYo], tables := [] }

def tabCapOne : String := "Таблица 1 - А"
def tabCapThree : String := "Таблица 3 - Б"

/-- Document with captions `Таблица 1 - А` and `Таблица 3 - Б`, no
`Таблица 2`, and one table object. -/
def c2doc : Doc :=
  { sections := [], paragraphs := [mkPara tabCapOne, mkPara tabCapThree],
    tables := [()] }

def refHeadText : String := "СПИСОК ИСПОЛЬЗОВАННЫХ ИСТОЧНИКОВ"
def refEntryOne : String := "1. Первый источник"
def refEntryThree : String := "3. Источник"

/-- Document whose reference list holds `1. Первый источник` and then
`3. Источник` at position 2. -/
def c5doc : Doc :=
  { sections := [],
    paragraphs := [mkPara refHeadText, mkPara refEntryOne, mkPara refEntryThree],
    tables := [] }

def hdgZeroTwo : String := "0.1 Тест"
def hdgZeroOne : String := "0 Тест."

/-- Document with the level-2 heading `0.1 Тест` (numeric prefix parses
to 0). -/
def c6doc : Doc := { sections := [], paragraphs := [mkPara hdgZeroTwo], tables := [] }

/-- Document with the level-1 heading `0 Тест.` (ends with a period and has
numeric prefix 0). -/
def c6wdoc : Doc := { sections := [], paragraphs := [mkPara hdgZeroOne], tables := [] }

def tabCapSeven : String := "Таблица 7 - Х"
def contCapNine : String := "Продолжение таблицы 9"

/-- Document with table captions, a broken sequence and no in-text
references, but zero table objects. -/
def c9doc : Doc :=
  { sections := [], paragraphs := [mkPara tabCapSeven, mkPara contCapNine],
    tables := [] }

def okSec : Sect :=
  { pageWidth := 210 * 36000, pageHeight := 297 * 36000,
    leftMargin := 30 * 36000, rightMargin := 15 * 36000,
    topMargin := 20 * 36000, bottomMargin := 20 * 36000, footer := none }

/-- Section with a 25 mm left margin (outside the 30±1 mm band). -/
def badSec : Sect := { okSec with leftMargin := 25 * 36000 }

def runTextAbc : String := "abc"
def arialName : String := "Arial"

/-- Run using the Arial font. -/
def arialRun : TextRun := { text := runTextAbc, fontName := some arialName, fontSizePt := none }

def bodyWord : String := "текст"

/-- Document with one paragraph holding an Arial run. -/
def c10doc : Doc :=
  { sections := [],
    paragraphs := [{ mkPara bodyWord with runs := [arialRun] }],
    tables := [] }

/-- Paragraph with no direct spacing, no numeric line-spacing property, the
`SINGLE` line-spacing rule, and a style named `полуторный`. -/
def cexPara : Paragraph :=
  { mkPara bodyWord with
    lineSpacingRuleProp := some WdLineSpacing.single,
    styleName := some litPolutorny }

/-- Width and height within 1 mm (36000 EMU) of A4. -/
def sectWidthHeightOk (s : Sect) : Prop :=
  (s.pageWidth - a4WidthEmu).natAbs ≤ 36000 ∧
  (s.pageHeight - a4HeightEmu).natAbs ≤ 36000

/-- Left margin within 1 mm of 30 mm. -/
def sectLeftOk (s : Sect) : Prop :=
  (s.leftMargin - leftMarginEmu).natAbs ≤ 36000

/-- Right margin within 1 mm of 15 mm or of 10 mm. -/
def sectRightOk (s : Sect) : Prop :=
  (s.rightMargin - rightMarginEmu).natAbs ≤ 36000 ∨
  (s.rightMargin - rightMarginAltEmu).natAbs ≤ 36000

/-- Top margin within 1 mm of 20 mm. -/
def sectTopOk (s : Sect) : Prop :=
  (s.topMargin - topMarginEmu).natAbs ≤ 36000

/-- Bottom margin within 1 mm of 20 mm. -/
def sectBottomOk (s : Sect) : Prop :=
  (s.bottomMargin - bottomMarginEmu).natAbs ≤ 36000

/-- All five tolerance bands of the claim. -/
def sectAllOk (s : Sect) : Prop :=
  sectWidthHeightOk s ∧ sectLeftOk s ∧ sectRightOk s ∧ sectTopOk s ∧ sectBottomOk s

instance (s : Sect) : Decidable (sectWidthHeightOk s) := by
  unfold sectWidthHeightOk; infer_instance

instance (s : Sect) : Decidable (sectLeftOk s) := by
  unfold sectLeftOk; infer_instance

instance (s : Sect) : Decidable (sectRightOk s) := by
  unfold sectRightOk; infer_instance

instance (s : Sect) : Decidable (sectTopOk s) := by
  unfold sectTopOk; infer_instance

instance (s : Sect) : Decidable (sectBottomOk s) := by
  unfold sectBottomOk; infer_instance

instance (s : Sect) : Decidable (sectAllOk s) := by
  unfold sectAllOk; infer_instance

/-- Compliant one-section document for the C4 witness. -/
def c4okdoc : Doc := { sections := [okSec], paragraphs := [], tables := [] }

/-- One-section document with a bad left margin for the C4 witness. -/
def c4baddoc : Doc := { sections := [badSec], paragraphs := [], tables := [] }

/-- Style-keyword normalization stage of the claim, stages (c) and (d):
written from the claim's wording for comparison with the code. -/
def claimStyleSpacing (sn : Option String) : ℚ :=
  match sn with
  | some s =>
    if subList litPolutorny.data (lowerList s.data) || subList litOneFive.data s.data then
      3/2
    else if subList litDvoinoy.data (lowerList s.data) || subList litTwoZero.data s.data ||
            subList litDoubleWord.data (lowerList s.data) then
      2
    else if subList litOdinarny.data (lowerList s.data) || subList litOneZero.data s.data ||
            subList litSingleWord.data (lowerList s.data) then
      1
    else 1
  | none => 1

/-- Claim C3's normalization chain exactly as stated: (a) direct spacing
value (an absent rule counting as `auto`; `auto` divides by 240, a fixed
rule yields `(value/20)/12` clamped to 1.0 at ratio ≤ 1.2); otherwise (b)
the numeric paragraph-level line-spacing property with the three snapping
bands; otherwise (c) style keywords; otherwise (d) 1.0.  The claim names no
stage between (b) and (c). -/
def claimOrderSpacing (p : Paragraph) : ℚ :=
  match p.spacingLine with
  | some v =>
    if p.spacingLineRule.getD litAuto = litAuto then v / 240
    else if v / 20 / 12 > 6/5 then v / 20 / 12 else 1
  | none =>
    match p.lineSpacingProp with
    | some ls =>
      if 7/5 ≤ ls ∧ ls ≤ 8/5 then 3/2
      else if 19/10 ≤ ls ∧ ls ≤ 21/10 then 2
      else if 9/10 ≤ ls ∧ ls ≤ 11/10 then 1
      else ls
    | none => claimStyleSpacing p.styleName

/-- Amended normalization chain: the claim's chain plus the stage the code
actually runs between (b) and (c) — a present `line_spacing_rule` of
ONE_POINT_FIVE / DOUBLE / SINGLE yields 1.5 / 2.0 / 1.0. -/
def amendedOrderSpacing (p : Paragraph) : ℚ :=
  match p.spacingLine with
  | some v =>
    if p.spacingLineRule.getD litAuto = litAuto then v / 240
    else if v / 20 / 12 > 6/5 then v / 20 / 12 else 1
  | none =>
    match p.lineSpacingProp with
    | some ls =>
      if 7/5 ≤ ls ∧ ls ≤ 8/5 then 3/2
      else if 19/10 ≤ ls ∧ ls ≤ 21/10 then 2
      else if 9/10 ≤ ls ∧ ls ≤ 11/10 then 1
      else ls
    | none =>
      match p.lineSpacingRuleProp with
      | some WdLineSpacing.onePointFive => 3/2
      | some WdLineSpacing.double => 2
      | some WdLineSpacing.single => 1
      | _ => claimStyleSpacing p.styleName

/-- The claim's notion of a Body paragraph subject to the line-spacing
check, read off the branch structure of lines 183-236. -/
def spacingEligible (ctx : ParaCtx) (p : Paragraph) : Bool :=
  p.text != "" && !(stripChars p.text.data).isEmpty &&
  !classifySkip p (stripChars p.text.data) &&
  !((updateCtx ctx (stripChars p.text.data)).inTerms ||
    (updateCtx ctx (stripChars p.text.data)).inAbbrev) &&
  !(startsTwoUpper (stripChars p.text.data) ||
    litGdeSp.data.isPrefixOf (stripChars p.text.data))

/-! Helper lemmas shared by the claim proofs. -/

theorem mem_enumLoop {α : Type} (f : Nat → α → List Issue) (b : Issue) :
    ∀ (L : List α) (i : Nat),
      b ∈ enumLoop f i L ↔ ∃ j a, L.get? j = some a ∧ b ∈ f (i + j) a := by
  intro L
  induction L with
  | nil => intro i; simp [enumLoop]
  | cons x rest ih =>
    intro i
    simp only [enumLoop, List.mem_append, ih (i + 1)]
    constructor
    · rintro (h | ⟨j, a, hj, hb⟩)
      · exact ⟨0, x, rfl, by simpa using h⟩
      · refine ⟨j + 1, a, by simpa using hj, ?_⟩
        have he : i + (j + 1) = i + 1 + j := by omega
        rw [he]; exact hb
    · rintro ⟨j, a, hj, hb⟩
      cases j with
      | zero =>
        left
        have hx : some x = some a := by simpa using hj
        cases hx
        simpa using hb
      | succ j =>
        right
        refine ⟨j, a, by simpa using hj, ?_⟩
        have he : i + 1 + j = i + (j + 1) := by omega
        rw [he]; exact hb

/-! Claim C1. -/

/-- Claim C1 (code_bug): on the appendix heading `Приложение Ё` the checker
emits no disallowed-letter Issue at all — it emits the invalid-designation
Issue instead — because the designation regex class `[А-Я]` (U+0410..U+042F)
does not contain `Ё` (U+0401), even though `Ё` is listed in the excluded-
letter string of line 563, which the first two conjuncts make unreachable
for `Ё`. -/
theorem appendix_yo_code_bug :
    Issue.appendixBadLetter 'Ё' ∉ validateAppendices c1doc ∧
    Issue.appendixInvalidDesignation pYo.text ∈ validateAppendices c1doc ∧
    litExcludedLetters.data.contains 'Ё' = true ∧
    appendixDesignation (stripChars pYo.text.data) = none := by decide

/-! Claim C8. -/

/-- Claim C8: a full validation pass is deterministic and resets the issue
accumulator (line 13), so two consecutive `validate_all` invocations on the
same document return identical ordered issue lists whatever state the
accumulator carried before each call. -/
theorem validate_all_deterministic_reset (d : Doc) (s1 s2 : List Issue) :
    validateAllFrom d s1 = validateAllFrom d s2 ∧
    validateAllFrom d (validateAllFrom d s1) = validateAllFrom d s1 :=
  ⟨rfl, rfl⟩

/-! Claim C9. -/

/-- Claim C9: with zero Table objects the Tables checker returns before any
caption parsing, so it emits no Issues regardless of the caption
paragraphs. -/
theorem tables_empty_no_issues (d : Doc) (h : d.tables = []) :
    validateTables d = [] := by
  simp [validateTables, h]

/-- Claim C9 witness: a document with a broken caption sequence and no
in-text references but zero tables gets no Tables issues. -/
theorem tables_empty_no_issues_witness : validateTables c9doc = [] :=
  tables_empty_no_issues c9doc rfl

/-! Claim C2. -/

theorem tableSequence_not_mem_perTable (d : Doc) (n g e : Nat) :
    Issue.tableSequence g e ∉ perTableIssues d n := by
  intro h
  unfold perTableIssues at h
  simp only [List.mem_append] at h
  rcases h with (h1 | h2) | h3
  · revert h1; split
    · split <;> simp
    · simp
  · simp only [List.mem_flatMap] at h2
    obtain ⟨x, _, hx⟩ := h2
    revert hx; split
    · split <;> simp
    · split <;> simp
  · revert h3; split <;> simp

theorem tableSequence_mem_iter (d : Doc) (i n g e : Nat) :
    Issue.tableSequence g e ∈ tableIterIssues d i n ↔ (g = n ∧ e = i ∧ n ≠ i) := by
  unfold tableIterIssues
  simp only [List.mem_append]
  constructor
  · rintro (h | h)
    · revert h; split
      · intro h
        simp only [List.mem_singleton, Issue.tableSequence.injEq] at h
        exact ⟨h.1, h.2, by assumption⟩
      · simp
    · exact absurd h (tableSequence_not_mem_perTable d n g e)
  · rintro ⟨hg, he, hne⟩
    subst hg; subst he
    left
    simp [hne]

/-- Claim C2: whenever the document has at least one table, the sequence
check walks the sorted distinct parsed caption numbers and emits the
sequence-broken Issue with expected value `j + 1` and observed value `g`
exactly when the observed sequence holds `g ≠ j + 1` at 0-based position
`j`. -/
theorem tables_sequence_positions (d : Doc) (hd : d.tables ≠ []) (g e : Nat) :
    Issue.tableSequence g e ∈ validateTables d ↔
      ∃ j, (observedTableNums d).get? j = some g ∧ e = j + 1 ∧ g ≠ e := by
  unfold validateTables
  have hne : d.tables.isEmpty = false := by
    cases htab : d.tables with
    | nil => exact absurd htab hd
    | cons a l => simp [List.isEmpty]
  rw [if_neg (by simp [hne])]
  rw [mem_enumLoop]
  constructor
  · rintro ⟨j, a, hj, hb⟩
    rw [tableSequence_mem_iter] at hb
    obtain ⟨hg, he, hne2⟩ := hb
    subst hg
    exact ⟨j, hj, by omega, by omega⟩
  · rintro ⟨j, hj, he, hne2⟩
    refine ⟨j, g, hj, ?_⟩
    rw [tableSequence_mem_iter]
    exact ⟨rfl, by omega, by omega⟩

/-- Claim C2 witness: captions `Таблица 1 - А` and `Таблица 3 - Б` with no
`Таблица 2` produce the sequence Issue naming observed number 3 and expected
number 2 (position 2 of the observed sequence). -/
theorem tables_sequence_positions_witness :
    Issue.tableSequence 3 2 ∈ validateTables c2doc :=
  (tables_sequence_positions c2doc (by decide) 3 2).mpr
    ⟨1, by decide, rfl, by decide⟩

/-! Claim C4. -/

theorem ite_singleton_eq_nil {α : Type} (b : α) (C : Prop) [Decidable C] :
    ((if C then [b] else []) = []) ↔ ¬C := by
  split <;> simp_all

theorem count_ite_singleton (a b : Issue) (C : Prop) [Decidable C] :
    (if C then [b] else []).count a = if C ∧ b = a then 1 else 0 := by
  split <;> simp_all [List.count_singleton']

/-- Claim C4: a section whose width, height and four margins all sit inside
their 1 mm tolerance bands contributes no Issues (and a fully compliant
document gets none at all), and each dimension outside its band contributes
exactly one Issue carrying that dimension's actual value. -/
theorem page_geometry_bands (d : Doc) :
    ((∀ s ∈ d.sections, sectAllOk s) → validatePageFormat d = []) ∧
    (∀ s : Sect,
      (sectGeomIssues s = [] ↔ sectAllOk s) ∧
      (sectGeomIssues s).count (Issue.pageSize s.pageWidth s.pageHeight) =
        (if sectWidthHeightOk s then 0 else 1) ∧
      (sectGeomIssues s).count (Issue.leftMargin s.leftMargin) =
        (if sectLeftOk s then 0 else 1) ∧
      (sectGeomIssues s).count (Issue.rightMargin s.rightMargin) =
        (if sectRightOk s then 0 else 1) ∧
      (sectGeomIssues s).count (Issue.topMargin s.topMargin) =
        (if sectTopOk s then 0 else 1) ∧
      (sectGeomIssues s).count (Issue.bottomMargin s.bottomMargin) =
        (if sectBottomOk s then 0 else 1)) := by
  have hnil : ∀ s : Sect, sectGeomIssues s = [] ↔ sectAllOk s := by
    intro s
    simp only [sectGeomIssues, List.append_eq_nil, ite_singleton_eq_nil,
      sectAllOk, sectWidthHeightOk, sectLeftOk, sectRightOk, sectTopOk,
      sectBottomOk]
    omega
  refine ⟨?_, fun s => ⟨hnil s, ?_, ?_, ?_, ?_, ?_⟩⟩
  · intro h
    simp only [validatePageFormat, List.flatMap_eq_nil_iff]
    intro s hs
    exact (hnil s).mpr (h s hs)
  all_goals
    simp only [sectGeomIssues, List.count_append, count_ite_singleton]
    simp only [sectWidthHeightOk, sectLeftOk, sectRightOk, sectTopOk,
      sectBottomOk]
    simp
    split_ifs <;> omega

/-- Claim C4 witness: the exact A4 section with margins (30, 15, 20, 20) mm
gets no Issues, and a section with a 25 mm left margin gets exactly one
left-margin Issue. -/
theorem page_geometry_bands_witness :
    sectGeomIssues okSec = [] ∧
    (sectGeomIssues badSec).count (Issue.leftMargin badSec.leftMargin) = 1 := by
  constructor
  · exact ((page_geometry_bands c4okdoc).2 okSec).1.mpr (by decide)
  · have h := ((page_geometry_bands c4baddoc).2 badSec).2.2.1
    rw [h, if_neg (by decide)]

/-! Claim C10. -/

theorem wrongFont_mem_runFontIssues (r : TextRun) (n t : String) :
    Issue.wrongFont n t ∈ runFontIssues r ↔
      (r.fontName = some n ∧ subList litTNR.data n.data = false ∧ r.text = t) := by
  unfold runFontIssues
  rcases hname : r.fontName with _ | nm <;> rcases hsize : r.fontSizePt with _ | q <;>
    simp_all <;> aesop

theorem smallFont_mem_runFontIssues (r : TextRun) (q : ℚ) (t : String) :
    Issue.smallFont q t ∈ runFontIssues r ↔
      (r.fontSizePt = some q ∧ q < 12 ∧ r.text = t) := by
  unfold runFontIssues
  rcases hname : r.fontName with _ | nm <;> rcases hsize : r.fontSizePt with _ | q2 <;>
    simp_all <;> aesop

/-- Claim C10: a font-name Issue arises only from a run whose font name is
present and lacks the `Times New Roman` substring (so a run with `None` font
name never produces one), and a size Issue only from a run whose size is
present and below 12 pt. -/
theorem font_issue_sources (d : Doc) :
    (∀ n t, Issue.wrongFont n t ∈ validateFont d →
      ∃ p, p ∈ d.paragraphs ∧ ∃ r, r ∈ p.runs ∧ r.fontName = some n ∧
        subList litTNR.data n.data = false ∧ r.text = t) ∧
    (∀ q t, Issue.smallFont q t ∈ validateFont d →
      ∃ p, p ∈ d.paragraphs ∧ ∃ r, r ∈ p.runs ∧ r.fontSizePt = some q ∧
        q < 12 ∧ r.text = t) ∧
    (∀ r : TextRun, r.fontName = none →
      ∀ n t, Issue.wrongFont n t ∉ runFontIssues r) := by
  refine ⟨?_, ?_, ?_⟩
  · intro n t h
    simp only [validateFont, List.mem_flatMap, List.mem_filter] at h
    obtain ⟨p, ⟨hp, _⟩, r, hr, hmem⟩ := h
    rw [wrongFont_mem_runFontIssues] at hmem
    exact ⟨p, hp, r, hr, hmem.1, hmem.2.1, hmem.2.2⟩
  · intro q t h
    simp only [validateFont, List.mem_flatMap, List.mem_filter] at h
    obtain ⟨p, ⟨hp, _⟩, r, hr, hmem⟩ := h
    rw [smallFont_mem_runFontIssues] at hmem
    exact ⟨p, hp, r, hr, hmem.1, hmem.2.1, hmem.2.2⟩
  · intro r hr n t h
    rw [wrongFont_mem_runFontIssues] at h
    rw [hr] at h
    exact Option.noConfusion h.1

/-- Claim C10 witness: the Arial run in `c10doc` really is the source of the
font-name Issue the checker emits for it. -/
theorem font_issue_sources_witness :
    ∃ p, p ∈ c10doc.paragraphs ∧ ∃ r, r ∈ p.runs ∧ r.fontName = some arialName ∧
      subList litTNR.data arialName.data = false ∧ r.text = runTextAbc :=
  (font_issue_sources c10doc).1 arialName runTextAbc (by decide)

/-! Claim C7. -/

theorem mem_ite_singleton (a b : Issue) (C : Prop) [Decidable C] :
    (a ∈ (if C then [b] else [])) ↔ C ∧ a = b := by
  split <;> simp_all

/-- The footer scan never reports `has_page_numbers = false` while a footer
anywhere holds non-empty text or a field marker, and conversely. -/
theorem pnFooterLoop_false_iff :
    ∀ (L : List Sect) (idx : Nat),
      (pnFooterLoop idx L).1 = false ↔
        ∀ s ∈ L, ∀ ps, s.footer = some ps → ∀ p ∈ ps,
          stripChars p.text.data = [] ∧ p.xmlHasFieldMark = false := by
  intro L
  induction L with
  | nil => intro idx; simp [pnFooterLoop]
  | cons s rest ih =>
    intro idx
    simp only [pnFooterLoop]
    rcases hf : s.footer with _ | ps <;> dsimp only
    · rw [ih (idx + 1)]
      constructor
      · intro h x hx
        rcases List.mem_cons.mp hx with rfl | hx
        · intro ps hps; rw [hf] at hps; exact Option.noConfusion hps
        · exact h x hx
      · intro h x hx
        exact h x (List.mem_cons_of_mem s hx)
    · by_cases hne : ps ≠ []
      · rw [if_pos hne]
        by_cases htext : (ps.any fun p => decide (stripChars p.text.data ≠ [])) = true
        · rw [if_pos htext]
          simp only [List.any_eq_true, decide_eq_true_eq] at htext
          obtain ⟨p, hp, hptext⟩ := htext
          constructor
          · intro h; exact absurd h (by simp)
          · intro h
            exact absurd ((h s (List.mem_cons_self s rest) ps hf p hp).1) hptext
        · rw [if_neg htext]
          by_cases hmark : (ps.any fun p => p.xmlHasFieldMark) = true
          · rw [if_pos hmark]
            simp only [List.any_eq_true] at hmark
            obtain ⟨p, hp, hpmark⟩ := hmark
            constructor
            · intro h; exact absurd h (by simp)
            · intro h
              have h2 := (h s (List.mem_cons_self s rest) ps hf p hp).2
              rw [h2] at hpmark
              exact Bool.noConfusion hpmark
          · rw [if_neg hmark]
            rw [ih (idx + 1)]
            simp only [List.any_eq_true, decide_eq_true_eq, not_exists,
              not_and] at htext hmark
            constructor
            · intro h x hx
              rcases List.mem_cons.mp hx with rfl | hx
              · intro ps2 hps2 p hp
                rw [hf] at hps2
                cases hps2
                refine ⟨?_, ?_⟩
                · by_contra hc; exact htext p hp hc
                · by_contra hc
                  exact hmark p hp (by simpa using hc)
              · exact h x hx
            · intro h x hx
              exact h x (List.mem_cons_of_mem s hx)
      · rw [if_neg hne]
        push_neg at hne
        subst hne
        rw [ih (idx + 1)]
        constructor
        · intro h x hx
          rcases List.mem_cons.mp hx with rfl | hx
          · intro ps2 hps2 p hp
            rw [hf] at hps2
            cases hps2
            exact absurd hp (List.not_mem_nil p)
          · exact h x hx
        · intro h x hx
          exact h x (List.mem_cons_of_mem s hx)

/-- The body scan finds nothing exactly when no paragraph carries `PAGE` /
`NUMPAGES` text or a field marker. -/
theorem pnBodyScan_false_iff :
    ∀ (L : List Paragraph) (i : Nat),
      (pnBodyScan i L).1 = false ↔
        ∀ p ∈ L, subList litPAGE.data p.text.data = false ∧
          subList litNUMPAGES.data p.text.data = false ∧
          p.xmlHasFieldMark = false := by
  intro L
  induction L with
  | nil => intro i; simp [pnBodyScan]
  | cons p rest ih =>
    intro i
    simp only [pnBodyScan]
    by_cases h1 :
        (subList litPAGE.data p.text.data || subList litNUMPAGES.data p.text.data) = true
    · rw [if_pos h1]
      simp only [Bool.or_eq_true] at h1
      constructor
      · intro h; exact absurd h (by simp)
      · intro h
        have hp := h p (List.mem_cons_self p rest)
        rcases h1 with h1 | h1
        · rw [hp.1] at h1; exact Bool.noConfusion h1
        · rw [hp.2.1] at h1; exact Bool.noConfusion h1
    · rw [if_neg h1]
      by_cases h2 : p.xmlHasFieldMark = true
      · rw [if_pos h2]
        constructor
        · intro h; exact absurd h (by simp)
        · intro h
          have hp := (h p (List.mem_cons_self p rest)).2.2
          rw [hp] at h2; exact Bool.noConfusion h2
      · rw [if_neg h2]
        rw [ih (i + 1)]
        simp only [Bool.or_eq_true, not_or, Bool.not_eq_true] at h1
        constructor
        · intro h x hx
          rcases List.mem_cons.mp hx with rfl | hx
          · exact ⟨h1.1, h1.2, by simpa using h2⟩
          · exact h x hx
        · intro h x hx
          exact h x (List.mem_cons_of_mem p hx)

theorem notFound_not_mem_footerCenterIssues (ps : List Paragraph) :
    Issue.pageNumbersNotFound ∉ footerCenterIssues ps := by
  intro h
  simp only [footerCenterIssues, List.mem_filterMap] at h
  obtain ⟨p, _, hp⟩ := h
  revert hp; split <;> simp

theorem notFound_not_mem_pnFooterLoop :
    ∀ (L : List Sect) (idx : Nat),
      Issue.pageNumbersNotFound ∉ (pnFooterLoop idx L).2.2 := by
  intro L
  induction L with
  | nil => intro idx; simp [pnFooterLoop]
  | cons s rest ih =>
    intro idx
    simp only [pnFooterLoop]
    rcases hf : s.footer with _ | ps <;> dsimp only
    · exact ih (idx + 1)
    · by_cases hne : ps ≠ []
      · rw [if_pos hne]
        by_cases htext : (ps.any fun p => decide (stripChars p.text.data ≠ [])) = true
        · rw [if_pos htext]
          exact notFound_not_mem_footerCenterIssues ps
        · rw [if_neg htext]
          by_cases hmark : (ps.any fun p => p.xmlHasFieldMark) = true
          · rw [if_pos hmark]
            exact ih (idx + 1)
          · rw [if_neg hmark]
            exact ih (idx + 1)
      · rw [if_neg hne]
        exact ih (idx + 1)

/-- Claim C7: the not-found Issue is emitted exactly when no footer
paragraph anywhere carries non-empty text or a field marker, the scan over
all document paragraphs also finds neither `PAGE`/`NUMPAGES` text nor a
marker, and the document has more than 20 paragraphs.  The checker itself is
a total function (the source swallows every internal error). -/
theorem page_numbering_not_found (d : Doc) :
    Issue.pageNumbersNotFound ∈ validatePageNumbering d ↔
      ((∀ s ∈ d.sections, ∀ ps, s.footer = some ps → ∀ p ∈ ps,
          stripChars p.text.data = [] ∧ p.xmlHasFieldMark = false) ∧
       (∀ p ∈ d.paragraphs, subList litPAGE.data p.text.data = false ∧
          subList litNUMPAGES.data p.text.data = false ∧
          p.xmlHasFieldMark = false) ∧
       20 < d.paragraphs.length) := by
  have hnf := notFound_not_mem_pnFooterLoop d.sections 0
  have hthird : (pnHasThird d).1 = false ↔
      ((pnFooterLoop 0 d.sections).1 = false ∧
       (pnBodyScan 0 d.paragraphs).1 = false) := by
    unfold pnHasThird
    by_cases hf1 : (pnFooterLoop 0 d.sections).1 = true
    · rw [if_pos hf1]; simp [hf1]
    · have hf0 : (pnFooterLoop 0 d.sections).1 = false := by simpa using hf1
      rw [if_neg (by simp [hf0])]; simp [hf0]
  unfold validatePageNumbering
  simp only [List.mem_append, mem_ite_singleton]
  constructor
  · rintro ((h | ⟨⟨hb, hlen⟩, _⟩) | ⟨_, hbad⟩)
    · exact absurd h hnf
    · have hb0 : (pnHasThird d).1 = false := by simpa using hb
      obtain ⟨hf0, hs0⟩ := hthird.mp hb0
      exact ⟨(pnFooterLoop_false_iff d.sections 0).mp hf0,
             (pnBodyScan_false_iff d.paragraphs 0).mp hs0, hlen⟩
    · exact Issue.noConfusion hbad
  · rintro ⟨hsec, hpar, hlen⟩
    refine Or.inl (Or.inr ⟨⟨?_, hlen⟩, trivial⟩)
    have hf0 := (pnFooterLoop_false_iff d.sections 0).mpr hsec
    have hs0 := (pnBodyScan_false_iff d.paragraphs 0).mpr hpar
    have hb0 := hthird.mpr ⟨hf0, hs0⟩
    simpa using hb0

/-! Claim C5. -/

theorem wrong_mem_refEntryIssues (m n i : Nat) (p : Paragraph) :
    Issue.refWrongNumber n i ∈ refEntryIssues m p ↔
      (i = m ∧ p.hasNumPr = false ∧
       refLeadingNum (stripChars p.text.data) = some n ∧ n ≠ m) := by
  unfold refEntryIssues
  by_cases hn : p.hasNumPr = true
  · simp [hn]
  · have hn0 : p.hasNumPr = false := by simpa using hn
    rcases hnum : refLeadingNum (stripChars p.text.data) with _ | k <;>
      simp [hn0, hnum]
    omega

theorem missing_mem_refEntryIssues (m i : Nat) (p : Paragraph) :
    Issue.refMissingNumber i ∈ refEntryIssues m p ↔
      (i = m ∧ p.hasNumPr = false ∧
       refLeadingNum (stripChars p.text.data) = none ∧
       (subList litHttp.data (stripChars p.text.data) ||
        subList litElRes.data (stripChars p.text.data)) = false) := by
  unfold refEntryIssues
  by_cases hn : p.hasNumPr = true
  · simp [hn]
  · have hn0 : p.hasNumPr = false := by simpa using hn
    rcases hnum : refLeadingNum (stripChars p.text.data) with _ | k <;>
      simp [hn0, hnum]
    tauto

theorem numbering_not_mem_refCitationIssues (d : Doc) (m : Nat) (p : Paragraph)
    (b : Issue) (hb : ∀ i, b ≠ Issue.refNoCitation i) :
    b ∉ refCitationIssues d m p := by
  intro h
  unfold refCitationIssues at h
  revert h; split
  · intro h
    exact hb m (by simpa using h)
  · simp

theorem numbering_not_mem_missingSectionIssues (d : Doc) (b : Issue)
    (hb : ∀ s, b ≠ Issue.missingSection s) :
    b ∉ missingSectionIssues d := by
  intro h
  simp only [missingSectionIssues, List.mem_filterMap] at h
  obtain ⟨x, _, hx⟩ := h
  revert hx; split
  · simp
  · intro hx
    exact hb x ((by simpa using hx : Issue.missingSection x = b).symm)

/-- Claim C5: for a reference-list entry at 1-based position `j + 1` that
lacks native list numbering, a parsed integer prefix `n` yields the
wrong-number Issue (naming expected `j + 1`) exactly when `n ≠ j + 1`, and a
missing prefix yields the missing-number Issue exactly when the entry has no
URL / electronic-resource marker either.  (An unparseable prefix is
impossible: the prefix regex only captures parseable numerals, so the
invalid-number branch never fires.) -/
theorem references_numbering (d : Doc) (j : Nat) (p : Paragraph)
    (hp : (referencesEntries d).get? j = some p) (hnum : p.hasNumPr = false) :
    (∀ n, refLeadingNum (stripChars p.text.data) = some n →
      (Issue.refWrongNumber n (j + 1) ∈ validateReferences d ↔ n ≠ j + 1)) ∧
    (refLeadingNum (stripChars p.text.data) = none →
      (Issue.refMissingNumber (j + 1) ∈ validateReferences d ↔
        (subList litHttp.data (stripChars p.text.data) ||
         subList litElRes.data (stripChars p.text.data)) = false)) := by
  have hne : (referencesEntries d).isEmpty = false := by
    cases he : referencesEntries d with
    | nil => rw [he] at hp; simp at hp
    | cons a l => simp [List.isEmpty]
  have hmem : ∀ b : Issue, (∀ s, b ≠ Issue.missingSection s) →
      (b ∈ validateReferences d ↔
        ∃ j2 p2, (referencesEntries d).get? j2 = some p2 ∧
          b ∈ refIterIssues d (1 + j2) p2) := by
    intro b hb
    unfold validateReferences
    simp only [List.mem_append, hne, Bool.false_eq_true, if_false]
    rw [mem_enumLoop]
    constructor
    · rintro (h | h)
      · exact absurd h (numbering_not_mem_missingSectionIssues d b hb)
      · exact h
    · intro h
      exact Or.inr h
  constructor
  · intro n hlead
    rw [hmem (Issue.refWrongNumber n (j + 1)) (fun i => by simp)]
    constructor
    · rintro ⟨j2, p2, hp2, hiter⟩
      unfold refIterIssues at hiter
      rcases List.mem_append.mp hiter with h | h
      · rw [wrong_mem_refEntryIssues] at h
        omega
      · exact absurd h (numbering_not_mem_refCitationIssues d (1 + j2) p2 _
          (fun i => by simp))
    · intro hneq
      refine ⟨j, p, hp, ?_⟩
      unfold refIterIssues
      apply List.mem_append.mpr
      left
      rw [wrong_mem_refEntryIssues]
      exact ⟨by omega, hnum, hlead, by omega⟩
  · intro hlead
    rw [hmem (Issue.refMissingNumber (j + 1)) (fun i => by simp)]
    constructor
    · rintro ⟨j2, p2, hp2, hiter⟩
      unfold refIterIssues at hiter
      rcases List.mem_append.mp hiter with h | h
      · rw [missing_mem_refEntryIssues] at h
        have hj : j2 = j := by omega
        subst hj
        rw [hp] at hp2
        cases hp2
        exact h.2.2.2
      · exact absurd h (numbering_not_mem_refCitationIssues d (1 + j2) p2 _
          (fun i => by simp))
    · intro hurl
      refine ⟨j, p, hp, ?_⟩
      unfold refIterIssues
      apply List.mem_append.mpr
      left
      rw [missing_mem_refEntryIssues]
      exact ⟨by omega, hnum, hlead, hurl⟩

/-- Claim C5 witness: the entry `3. Источник` at position 2 of the reference
list yields the wrong-number Issue naming expected number 2. -/
theorem references_numbering_witness :
    Issue.refWrongNumber 3 2 ∈ validateReferences c5doc :=
  ((references_numbering c5doc 1 (mkPara refEntryThree) (by decide) rfl).1 3
    (by decide)).mpr (by decide)

/-! Claim C6. -/

/-- Every collected heading carries the level the pattern list assigns to
its text. -/
theorem headingEntries_level (d : Doc) (t : List Char) (lv : Nat) (p : Paragraph)
    (h : (t, lv, p) ∈ headingEntries d) : headingLevelOf t = some lv := by
  simp only [headingEntries, List.mem_filterMap] at h
  obtain ⟨q, _, hq⟩ := h
  revert hq
  split
  · simp
  · split
    · simp
    · intro hq
      rcases hlv : headingLevelOf (stripChars q.text.data) with _ | lv2
      · rw [hlv] at hq; simp at hq
      · rw [hlv] at hq
        simp only [Option.map_some', Option.some.injEq, Prod.mk.injEq] at hq
        obtain ⟨ht, hl, -⟩ := hq
        rw [← ht, ← hl] at *
        exact hlv

theorem stringMk_inj (a b : List Char) : ((⟨a⟩ : String) = ⟨b⟩) ↔ a = b :=
  ⟨fun h => congrArg String.data h, fun h => by rw [h]⟩

theorem period_mem_headingEntryIssues (e : List Char × Nat × Paragraph)
    (t : List Char) :
    Issue.headingPeriod ⟨t⟩ ∈ headingEntryIssues e ↔
      (e.1 = t ∧ e.2.1 ≠ 0 ∧ listEndsWith t (['.'] : List Char) = true) := by
  obtain ⟨t2, lv2, p2⟩ := e
  unfold headingEntryIssues
  rcases hdec : decNumValue t2 with _ | x <;>
    by_cases h0 : lv2 = 0 <;>
      simp [h0, hdec, mem_ite_singleton, stringMk_inj] <;> aesop

theorem numbering_mem_headingEntryIssues (e : List Char × Nat × Paragraph)
    (t : List Char) :
    Issue.headingNumbering ⟨t⟩ ∈ headingEntryIssues e ↔
      (e.1 = t ∧ e.2.1 = 1 ∧ ∃ x, decNumValue t = some x ∧ x.1 < 1) := by
  obtain ⟨t2, lv2, p2⟩ := e
  unfold headingEntryIssues
  rcases hdec : decNumValue t2 with _ | x <;>
    by_cases h0 : lv2 = 0 <;>
      simp [h0, hdec, mem_ite_singleton, stringMk_inj] <;> aesop

/-- Claim C6 counterexample (the claim as stated is false): the level-2
heading `0.1 Тест` has numeric prefix parsing to 0 < 1, yet the checker
emits no invalid-numbering Issue for it — the numbering check runs only for
level-1 headings. -/
theorem heading_numbering_counterexample :
    ¬ (∀ (d : Doc) (t : List Char) (lv : Nat) (p : Paragraph),
        (t, lv, p) ∈ headingEntries d → 1 ≤ lv →
        ∀ x, decNumValue t = some x → x.1 < 1 →
        Issue.headingNumbering ⟨t⟩ ∈ validateHeadings d) := by
  intro h
  have hd : decNumValue (stripChars hdgZeroTwo.data) =
      some (0, [' ', 'Т', 'е', 'с', 'т']) := by decide
  have hm := h c6doc (stripChars hdgZeroTwo.data) 2 (mkPara hdgZeroTwo)
    (by decide) (by decide) (0, [' ', 'Т', 'е', 'с', 'т']) hd (by decide)
  exact absurd hm (by decide)

/-- Claim C6 amended: for every detected heading of level 1, 2 or 3, the
checker emits the trailing-period Issue exactly when the text ends with a
period, and emits the invalid-numbering Issue exactly when the heading is of
level 1 and its numeric prefix parses below 1 (levels 2 and 3 get no
numbering check). -/
theorem headings_level_checks (d : Doc) (t : List Char) (lv : Nat) (p : Paragraph)
    (he : (t, lv, p) ∈ headingEntries d) (hlv : 1 ≤ lv) :
    (Issue.headingPeriod ⟨t⟩ ∈ validateHeadings d ↔
      listEndsWith t (['.'] : List Char) = true) ∧
    (Issue.headingNumbering ⟨t⟩ ∈ validateHeadings d ↔
      (lv = 1 ∧ ∃ x, decNumValue t = some x ∧ x.1 < 1)) := by
  have hlev := headingEntries_level d t lv p he
  constructor
  · rw [validateHeadings, List.mem_flatMap]
    constructor
    · rintro ⟨e, hee, hmem⟩
      rw [period_mem_headingEntryIssues] at hmem
      exact hmem.2.2
    · intro hend
      refine ⟨(t, lv, p), he, ?_⟩
      rw [period_mem_headingEntryIssues]
      refine ⟨rfl, ?_, hend⟩
      simp only []
      omega
  · rw [validateHeadings, List.mem_flatMap]
    constructor
    · rintro ⟨e, hee, hmem⟩
      rw [numbering_mem_headingEntryIssues] at hmem
      obtain ⟨het, helv, x, hx, hlt⟩ := hmem
      obtain ⟨e1, e2, e3⟩ := e
      have hlev2 := headingEntries_level d e1 e2 e3 hee
      simp only at het helv
      rw [het, helv] at hlev2
      rw [hlev] at hlev2
      have : lv = 1 := by
        have := Option.some.inj hlev2
        omega
      exact ⟨this, x, hx, hlt⟩
    · rintro ⟨hlv1, x, hx, hlt⟩
      refine ⟨(t, lv, p), he, ?_⟩
      rw [numbering_mem_headingEntryIssues]
      exact ⟨rfl, hlv1, x, hx, hlt⟩

/-- Claim C6 amended witness: the level-1 heading `0 Тест.` receives both
the trailing-period Issue and the invalid-numbering Issue. -/
theorem headings_level_checks_witness :
    Issue.headingPeriod ⟨stripChars hdgZeroOne.data⟩ ∈ validateHeadings c6wdoc ∧
    Issue.headingNumbering ⟨stripChars hdgZeroOne.data⟩ ∈ validateHeadings c6wdoc := by
  have h := headings_level_checks c6wdoc (stripChars hdgZeroOne.data) 1
    (mkPara hdgZeroOne) (by decide) (by decide)
  exact ⟨h.1.mpr (by decide),
    h.2.mpr ⟨rfl, (0, [' ', 'Т', 'е', 'с', 'т', '.']), by decide, by decide⟩⟩

/-! Claim C3. -/

/-- Claim C3 counterexample (the claim as stated is false): a paragraph with
no direct spacing, no numeric line-spacing property, the SINGLE line-spacing
rule and a style named `полуторный` normalizes to 1.0 in the code (the rule
enum decides before the style stage), while the claim's chain reaches stage
(c) and yields 1.5. -/
theorem line_spacing_order_counterexample :
    (getLineSpacingValue cexPara).1 = 1 ∧
    claimOrderSpacing cexPara = 3/2 ∧ ((1 : ℚ) ≠ 3/2) := by
  refine ⟨by decide, by rfl, by norm_num⟩

theorem styleSpacing_fst (p : Paragraph) :
    (styleSpacing p).1 = claimStyleSpacing p.styleName := by
  unfold styleSpacing claimStyleSpacing
  rcases hs : p.styleName with _ | s <;> simp only [hs]
  split_ifs <;> rfl

theorem getLineSpacing_fst (p : Paragraph) :
    (getLineSpacingValue p).1 = amendedOrderSpacing p := by
  unfold getLineSpacingValue amendedOrderSpacing
  rcases hsl : p.spacingLine with _ | v <;> (try dsimp only)
  · rcases hlp : p.lineSpacingProp with _ | ls <;> (try dsimp only)
    · rcases hrp : p.lineSpacingRuleProp with _ | r <;> (try dsimp only)
      · exact styleSpacing_fst p
      · cases r <;> (try dsimp only) <;> first | rfl | exact styleSpacing_fst p
    · split_ifs <;> rfl
  · split_ifs <;> rfl

theorem lineSpacing_not_mem_indentIssues (p : Paragraph) (v : ℚ) (r s : String) :
    Issue.lineSpacing v r s ∉ indentIssuesOf p := by
  unfold indentIssuesOf
  split
  · simp
  · split <;> simp

theorem lineSpacing_not_mem_alignIssues (p : Paragraph) (t : List Char)
    (v : ℚ) (r s : String) :
    Issue.lineSpacing v r s ∉ alignIssuesOf p t := by
  unfold alignIssuesOf
  split <;> simp

theorem exists_lineSpacing_mem_spacingIssues (p : Paragraph) :
    (∃ v r s, Issue.lineSpacing v r s ∈ spacingIssuesOf p) ↔
      ¬(7/5 ≤ (getLineSpacingValue p).1 ∧ (getLineSpacingValue p).1 ≤ 8/5) := by
  constructor
  · rintro ⟨v, r, s, hm⟩
    intro hband
    simp only [spacingIssuesOf] at hm
    rw [if_neg (not_not_intro hband)] at hm
    exact absurd hm (List.not_mem_nil _)
  · intro hband
    refine ⟨(getLineSpacingValue p).1,
      (if (getLineSpacingValue p).2 = litAuto then litMnozhitel else litTochno),
      p.text, ?_⟩
    simp only [spacingIssuesOf]
    rw [if_pos hband]
    exact List.mem_singleton_self _

theorem exists_lineSpacing_mem_bodyRest (ctx2 : ParaCtx) (p : Paragraph)
    (t : List Char) :
    (∃ v r s, Issue.lineSpacing v r s ∈ bodyRestIssues ctx2 p t) ↔
      (classifySkip p t = false ∧ (ctx2.inTerms || ctx2.inAbbrev) = false ∧
       (startsTwoUpper t || litGdeSp.data.isPrefixOf t) = false ∧
       ¬(7/5 ≤ (getLineSpacingValue p).1 ∧ (getLineSpacingValue p).1 ≤ 8/5)) := by
  unfold bodyRestIssues
  split_ifs with h1 h2 h3
  · simp [h1]
  · simp [h1, h2]
  · simp [h1, h2, h3]
  · simp only [List.mem_append]
    constructor
    · rintro ⟨v, r, s, hm | hm⟩
      · exact absurd hm (lineSpacing_not_mem_indentIssues p v r s)
      · refine ⟨by rwa [Bool.not_eq_true] at h1, by rwa [Bool.not_eq_true] at h2,
          by rwa [Bool.not_eq_true] at h3, ?_⟩
        exact (exists_lineSpacing_mem_spacingIssues p).mp ⟨v, r, s, hm⟩
    · rintro ⟨-, -, -, hband⟩
      obtain ⟨v, r, s, hm⟩ := (exists_lineSpacing_mem_spacingIssues p).mpr hband
      exact ⟨v, r, s, Or.inr hm⟩

/-- Claim C3 amended: the normalization follows the claim's chain with the
line-spacing-rule enum stage inserted between (b) and (c), and a Body
paragraph is flagged exactly when the normalized multiplier leaves
[1.4, 1.6]. -/
theorem line_spacing_amended (ctx : ParaCtx) (p : Paragraph) :
    (getLineSpacingValue p).1 = amendedOrderSpacing p ∧
    ((∃ v r s, Issue.lineSpacing v r s ∈ (paragraphStep ctx p).2) ↔
      (spacingEligible ctx p = true ∧
       ¬(7/5 ≤ (getLineSpacingValue p).1 ∧ (getLineSpacingValue p).1 ≤ 8/5))) := by
  refine ⟨getLineSpacing_fst p, ?_⟩
  unfold paragraphStep spacingEligible
  by_cases h1 : p.text = ""
  · rw [if_pos h1]
    simp [h1]
  · rw [if_neg h1]
    by_cases h2 : (stripChars p.text.data).isEmpty = true
    · rw [if_pos h2]
      simp [h1, h2]
    · rw [if_neg h2]
      simp only [List.mem_append]
      have hne : (p.text != "") = true := by
        simpa using h1
      have hstr : (!(stripChars p.text.data).isEmpty) = true := by
        simpa using h2
      constructor
      · rintro ⟨v, r, s, hm | hm⟩
        · exact absurd hm (lineSpacing_not_mem_alignIssues p _ v r s)
        · have := (exists_lineSpacing_mem_bodyRest _ p _).mp ⟨v, r, s, hm⟩
          obtain ⟨hc, hctx, hup, hband⟩ := this
          refine ⟨?_, hband⟩
          simp [hne, hstr, hc, hctx, hup]
      · rintro ⟨helig, hband⟩
        simp only [Bool.and_eq_true, Bool.not_eq_true'] at helig
        obtain ⟨⟨⟨⟨-, -⟩, hc⟩, hctx⟩, hup⟩ := helig
        obtain ⟨v, r, s, hm⟩ :=
          (exists_lineSpacing_mem_bodyRest _ p _).mpr ⟨hc, hctx, hup, hband⟩
        exact ⟨v, r, s, Or.inr hm⟩

end DocsAnalyzer
